import Mathlib

/-!
Verification development for the 3Dtourio backend (Express + Firestore).

The definitions below are a shallow embedding of the TypeScript sources:
Firestore collections become Lean lists of documents, async route handlers
become pure functions from an explicit state (plus the request data and the
decoded auth token) to a response and a new state, and ISO timestamps become
abstract `Nat` clock values passed in by the caller (`new Date()` at each
call site becomes an explicit `now` argument).
-/

/-! ## JavaScript object model (for the document-merge semantics)

`updateSpace` / `updateTour` / `updateTeam` merge raw JavaScript objects with
spread syntax (`{ ...doc.data(), ...updates, updatedAt: ... }`).  To state
what those merges do — including the treatment of keys explicitly set to
`undefined` — we model a JS object as an association list of key/value
bindings in which a *later* binding for a key shadows an earlier one, which
is exactly what object spread produces at top level. -/

/-- A JavaScript value as it can appear in one of the update payloads:
strings, numbers, booleans, string arrays (`imageUrls`), `null`, and the
`undefined` value (which Firestore rejects, hence the filtering in
`updateSpace`). -/
inductive JsVal : Type where
  | str (s : String)
  | num (n : Int)
  | boolean (b : Bool)
  | arr (vs : List String)
  | null
  | undef
deriving DecidableEq, Repr

/-- A JavaScript object, as an ordered list of key/value bindings;
later bindings shadow earlier ones (spread semantics). -/
abbrev JsObj : Type := List (String × JsVal)

/-- Key lookup in a JS object: the value of the *last* binding for the key
(later spread entries win), `none` when the key is absent. -/
def objGet (o : JsObj) (k : String) : Option JsVal :=
  (o.reverse.find? (fun p => p.1 = k)).map (fun p => p.2)

/-- `Object.fromEntries(Object.entries(updates).filter(([, v]) => v !== undefined))`
from `updateSpace` in `src/lib/storage.ts`: drop the bindings whose value is
`undefined`. -/
def cleanUndef (u : JsObj) : JsObj :=
  List.filter (fun p => p.2 != JsVal.undef) u

/-- The merged document built by `updateSpace` in `src/lib/storage.ts`:
`{ ...doc.data(), ...clean, updatedAt: new Date().toISOString() }`
where `clean` is `updates` with `undefined`-valued entries stripped. -/
def updateSpaceMerge (docv : JsObj) (u : JsObj) (now : JsVal) : JsObj :=
  docv ++ cleanUndef u ++ [("updatedAt", now)]

/-- The merged document built by `updateTour` in `src/lib/tours.ts`:
`{ ...doc.data(), ...updates, updatedAt: new Date().toISOString() }`
(no stripping of `undefined` values). -/
def updateTourMerge (docv : JsObj) (u : JsObj) (now : JsVal) : JsObj :=
  docv ++ u ++ [("updatedAt", now)]

/-- The merged document built by `updateTeam` in `src/lib/teams.ts`:
`{ ...doc.data(), ...updates, updatedAt: new Date().toISOString() }`. -/
def updateTeamMerge (docv : JsObj) (u : JsObj) (now : JsVal) : JsObj :=
  docv ++ u ++ [("updatedAt", now)]

/-- A Firestore collection of raw documents, keyed by document id. -/
abbrev DocDB : Type := List (String × JsObj)

/-- `db.collection(c).doc(id).get()` on a raw collection. -/
def docGet (db : DocDB) (id : String) : Option JsObj :=
  (List.find? (fun p => p.1 = id) db).map (fun p => p.2)

/-- `ref.set(merged, { merge: true })`: replace the stored document
(`merged` already contains every key of the old document, so the
merge-write stores exactly `merged`). -/
def docSet (db : DocDB) (id : String) (d : JsObj) : DocDB :=
  List.map (fun p => if p.1 = id then (p.1, d) else p) db

/-- `updateSpace(id, updates)` from `src/lib/storage.ts`, at document level:
`null` (and no write) when the document does not exist, otherwise the merged
document is stored and returned. -/
def updateSpaceDoc (db : DocDB) (id : String) (u : JsObj) (now : JsVal) :
    Option JsObj × DocDB :=
  match docGet db id with
  | none => (none, db)
  | some d =>
      let merged := updateSpaceMerge d u now
      (some merged, docSet db id merged)

/-- `updateTour(id, updates)` from `src/lib/tours.ts`, at document level. -/
def updateTourDoc (db : DocDB) (id : String) (u : JsObj) (now : JsVal) :
    Option JsObj × DocDB :=
  match docGet db id with
  | none => (none, db)
  | some d =>
      let merged := updateTourMerge d u now
      (some merged, docSet db id merged)

/-- `updateTeam(id, updates)` from `src/lib/teams.ts`, at document level. -/
def updateTeamDoc (db : DocDB) (id : String) (u : JsObj) (now : JsVal) :
    Option JsObj × DocDB :=
  match docGet db id with
  | none => (none, db)
  | some d =>
      let merged := updateTeamMerge d u now
      (some merged, docSet db id merged)

/-! ## Typed data model (`Space`, `TourRoom`, `Tour`, `Team`)

Mirrors the exported interfaces of `src/lib/storage.ts`, `src/lib/tours.ts`
and `src/lib/teams.ts`.  TypeScript optional fields (`foo?: string`) become
`Option String`; ISO timestamp strings become `Nat` clock values. -/

/-- `interface Space` from `src/lib/storage.ts`.  The `status` field is typed
as a `String` (the TS type is the union of four string literals; which
strings actually get stored is exactly what claim C1 is about). -/
structure SpaceDoc : Type where
  id : String
  teamId : String
  createdBy : String
  name : String
  address : String
  description : String
  status : String
  operationId : Option String := none
  worldId : Option String := none
  thumbnailUrl : Option String := none
  panoramaUrl : Option String := none
  splatUrl : Option String := none
  splatUrl500k : Option String := none
  splatUrl100k : Option String := none
  meshUrl : Option String := none
  marbleUrl : Option String := none
  originalImageUrl : Option String := none
  imageUrls : Option (List String) := none
  imageCount : Nat
  createdAt : Nat
  updatedAt : Nat
  errorMessage : Option String := none
deriving DecidableEq, Repr

/-- `interface TourRoom` from `src/lib/tours.ts`. -/
structure TourRoom : Type where
  spaceId : String
  label : String
  order : Nat
deriving DecidableEq, Repr

/-- `interface Tour` from `src/lib/tours.ts`. -/
structure Tour : Type where
  id : String
  teamId : String
  createdBy : String
  name : String
  address : String
  description : String
  rooms : List TourRoom
  isPublic : Bool
  shareToken : String
  createdAt : Nat
  updatedAt : Nat
deriving DecidableEq, Repr

/-- `interface Team` from `src/lib/teams.ts` (`type` is `"personal"` or
`"organization"`). -/
structure Team : Type where
  id : String
  name : String
  type : String
  ownerId : String
  memberIds : List String
  inviteCode : String
  inviteEnabled : Bool
  createdAt : Nat
  updatedAt : Nat
deriving DecidableEq, Repr

abbrev SpaceDB : Type := List SpaceDoc
abbrev TourDB : Type := List Tour
abbrev TeamDB : Type := List Team

/-! ## A stable sort

`rooms.sort((a, b) => a.order - b.order)` in `addRoomToTour` is JavaScript's
stable ascending sort by `order`; `query.orderBy("createdAt", "desc")` in
`getAllSpaces` / `getAllTours` is Firestore's descending sort by `createdAt`.
Both are modelled by a stable insertion sort parameterised by a strict
"comes strictly before" test. -/

/-- Insert `x` into `l` before the first element it strictly precedes
(stable: `x` lands after every element it does not strictly precede). -/
def insertBy {α : Type} (lt : α → α → Bool) (x : α) : List α → List α
  | [] => [x]
  | y :: ys => if lt x y then x :: y :: ys else y :: insertBy lt x ys

/-- Stable insertion sort by the strict test `lt`. -/
def sortBy {α : Type} (lt : α → α → Bool) : List α → List α
  | [] => []
  | x :: xs => insertBy lt x (sortBy lt xs)

/-! ## Data-access layer: spaces (`src/lib/storage.ts`) -/

/-- `getSpace(id)`: fetch the document with the given id. -/
def getSpace (db : SpaceDB) (id : String) : Option SpaceDoc :=
  List.find? (fun s => s.id = id) db

/-- `getAllSpaces(teamId)` with a team filter: the `teamId == …` where-clause
followed by `orderBy("createdAt", "desc")`. -/
def getAllSpaces (db : SpaceDB) (teamId : String) : SpaceDB :=
  sortBy (fun a b => b.createdAt < a.createdAt)
    (List.filter (fun s => s.teamId = teamId) db)

/-- `createSpace(space)`: `doc(space.id).set(space)` — store the document
under its id (replacing any previous document with that id). -/
def putSpace (db : SpaceDB) (s : SpaceDoc) : SpaceDB :=
  s :: List.filter (fun t => t.id ≠ s.id) db

/-- `deleteSpace(id)`: remove the document. -/
def deleteSpaceDoc (db : SpaceDB) (id : String) : SpaceDB :=
  List.filter (fun s => s.id ≠ id) db

/-- Apply an update function to the space with the given id
(`updateSpace` writing the merged document back under the same id);
a no-op when the id is absent, matching `updateSpace` returning `null`
without storing anything. -/
def mapSpace (db : SpaceDB) (id : String) (f : SpaceDoc → SpaceDoc) : SpaceDB :=
  List.map (fun s => if s.id = id then f s else s) db

/-- `getSpacesByIds(ids)`: the chunked `__name__ in` queries return exactly
the stored documents whose id is in `ids`. -/
def getSpacesByIds (db : SpaceDB) (ids : List String) : SpaceDB :=
  List.filter (fun s => ids.contains s.id) db

/-- `bucket.getFiles({ prefix })` membership test: does the path start with
the prefix string (compared character by character)? -/
def strStartsWith (pre p : String) : Bool :=
  List.isPrefixOf pre.data p.data

/-- `deleteSpaceFiles(spaceId)` from `src/lib/storage.ts`, acting on the set
of stored object paths: every file under `models/<spaceId>/` or
`images/<spaceId>/` is deleted, everything else is kept. -/
def deleteSpaceFiles (files : List String) (spaceId : String) : List String :=
  List.filter
    (fun p =>
      !(strStartsWith ("models/" ++ spaceId ++ "/") p) &&
      !(strStartsWith ("images/" ++ spaceId ++ "/") p))
    files

/-! ## Data-access layer: tours (`src/lib/tours.ts`) -/

/-- `getTour(id)`. -/
def getTour (db : TourDB) (id : String) : Option Tour :=
  List.find? (fun t => t.id = id) db

/-- `getAllTours(teamId)` with a team filter. -/
def getAllTours (db : TourDB) (teamId : String) : TourDB :=
  sortBy (fun a b => b.createdAt < a.createdAt)
    (List.filter (fun t => t.teamId = teamId) db)

/-- Write an updated tour back under its id (`txn.update(ref, updates)`). -/
def mapTour (db : TourDB) (id : String) (f : Tour → Tour) : TourDB :=
  List.map (fun t => if t.id = id then f t else t) db

/-- The rooms list built by `addRoomToTour`:
`[...tour.rooms.filter((r) => r.spaceId !== room.spaceId), room]` followed by
the stable ascending sort `rooms.sort((a, b) => a.order - b.order)`. -/
def addRoomRooms (rooms : List TourRoom) (room : TourRoom) : List TourRoom :=
  sortBy (fun a b => a.order < b.order)
    (List.filter (fun r => r.spaceId ≠ room.spaceId) rooms ++ [room])

/-- `addRoomToTour(tourId, room)` from `src/lib/tours.ts`. -/
def addRoomToTour (db : TourDB) (tourId : String) (room : TourRoom)
    (now : Nat) : Option Tour × TourDB :=
  match getTour db tourId with
  | none => (none, db)
  | some tour =>
      let t' : Tour := { tour with rooms := addRoomRooms tour.rooms room,
                                   updatedAt := now }
      (some t', mapTour db tourId (fun _ => t'))

/-- `removeRoomFromTour(tourId, spaceId)` from `src/lib/tours.ts`. -/
def removeRoomFromTour (db : TourDB) (tourId : String) (spaceId : String)
    (now : Nat) : Option Tour × TourDB :=
  match getTour db tourId with
  | none => (none, db)
  | some tour =>
      let t' : Tour := { tour with
                           rooms := List.filter
                             (fun r => r.spaceId ≠ spaceId) tour.rooms,
                           updatedAt := now }
      (some t', mapTour db tourId (fun _ => t'))

/-- `getTourByToken(token)`: the `shareToken == token` query with
`limit(1)` returns the first stored tour whose token matches. -/
def getTourByToken (db : TourDB) (token : String) : Option Tour :=
  List.find? (fun t => t.shareToken = token) db

/-! ## Data-access layer: teams (`src/lib/teams.ts`) -/

/-- `getTeam(id)`. -/
def getTeam (db : TeamDB) (id : String) : Option Team :=
  List.find? (fun t => t.id = id) db

/-- Write an updated team back under its id. -/
def mapTeam (db : TeamDB) (id : String) (f : Team → Team) : TeamDB :=
  List.map (fun t => if t.id = id then f t else t) db

/-- `deleteTeam(id)`. -/
def deleteTeamDoc (db : TeamDB) (id : String) : TeamDB :=
  List.filter (fun t => t.id ≠ id) db

/-- `addMemberToTeam(teamId, userId)` from `src/lib/teams.ts`: inside a
transaction — `null` when the team does not exist; when the user is already
a member, return the team unchanged without writing; otherwise append the
user and bump `updatedAt`. -/
def addMemberToTeam (db : TeamDB) (teamId : String) (userId : String)
    (now : Nat) : Option Team × TeamDB :=
  match getTeam db teamId with
  | none => (none, db)
  | some team =>
      if userId ∈ team.memberIds then (some team, db)
      else
        let t' : Team := { team with memberIds := team.memberIds ++ [userId],
                                     updatedAt := now }
        (some t', mapTeam db teamId (fun _ => t'))

/-- `removeMemberFromTeam(teamId, userId)` from `src/lib/teams.ts`: `null`
(without writing) when the team does not exist, the user is the owner, or
the team is personal; otherwise filter the user out of `memberIds`. -/
def removeMemberFromTeam (db : TeamDB) (teamId : String) (userId : String)
    (now : Nat) : Option Team × TeamDB :=
  match getTeam db teamId with
  | none => (none, db)
  | some team =>
      if team.ownerId = userId then (none, db)
      else if team.type = "personal" then (none, db)
      else
        let t' : Team := { team with
                             memberIds := List.filter
                               (fun i => i ≠ userId) team.memberIds,
                             updatedAt := now }
        (some t', mapTeam db teamId (fun _ => t'))

/-! ## Auth (`src/lib/auth.ts`)

`verifyAuthToken` delegates to the external identity provider; its outcome is
modelled as an input `decodedUid : Option String` (`none` = no or invalid
credentials, `some uid` = a verified token for `uid`). -/

/-- The `AuthContext` interface of `src/lib/auth.ts`. -/
structure AuthContext : Type where
  uid : String
  teamId : String
deriving DecidableEq, Repr

/-- `resolveAuthContext(req)` from `src/lib/auth.ts`: `null` without a
verified token, without an `x-team-id` header, when the named team does not
exist, or when the caller is not in its `memberIds`. -/
def resolveAuthContext (decodedUid : Option String)
    (teamIdHeader : Option String) (teams : TeamDB) : Option AuthContext :=
  match decodedUid with
  | none => none
  | some uid =>
      match teamIdHeader with
      | none => none
      | some teamId =>
          match getTeam teams teamId with
          | none => none
          | some team =>
              if uid ∈ team.memberIds then some ⟨uid, teamId⟩ else none

/-! ## HTTP responses -/

/-- An HTTP route outcome: either a JSON body (the resource), or an error
status code with the error message sent in the body.  A resource can only
appear through the `ok` constructor, so "the response body never contains
the resource" is "the response is not `ok _`". -/
inductive Resp (α : Type) : Type where
  | ok (body : α)
  | err (code : Nat) (msg : String)
deriving DecidableEq, Repr

/-! ## Asset post-processing (`src/lib/compress.ts`) -/

/-- The `WorldAssets` shapes of `src/lib/compress.ts`: every level of the
TS optional chain (`assets.splats?.spz_urls?.full_res`) is an `Option`.
`res500k` / `res100k` stand for the `"500k"` / `"100k"` keys. -/
structure SpzUrls : Type where
  full_res : Option String := none
  res500k : Option String := none
  res100k : Option String := none
deriving DecidableEq, Repr

structure SplatAssets : Type where
  spz_urls : Option SpzUrls := none
deriving DecidableEq, Repr

structure MeshAssets : Type where
  glb_url : Option String := none
deriving DecidableEq, Repr

structure WorldAssets : Type where
  thumbnail_url : Option String := none
  panorama_url : Option String := none
  splats : Option SplatAssets := none
  mesh : Option MeshAssets := none
deriving DecidableEq, Repr

/-- The `CompressedUrls` interface of `src/lib/compress.ts`. -/
structure CompressedUrls : Type where
  thumbnailUrl : Option String := none
  panoramaUrl : Option String := none
  splatUrl : Option String := none
  splatUrl500k : Option String := none
  splatUrl100k : Option String := none
  meshUrl : Option String := none
deriving DecidableEq, Repr

/-- JavaScript truthiness of an optional string: `undefined` and the empty
string are falsy (`if (assets.thumbnail_url)` / `url || other`). -/
def jsTruthy : Option String → Bool
  | none => false
  | some s => s ≠ ""

/-- JavaScript `a || b` on optional strings. -/
def jsOr (a b : Option String) : Option String :=
  if jsTruthy a then a else b

/-- How an asset is processed before upload: recompressed to WebP by `sharp`
(with an optional `resize` width bound), or copied byte-for-byte. -/
inductive Transform : Type where
  | webpRecompress (maxWidth : Option Nat)
  | verbatim
deriving DecidableEq, Repr

/-- One download/re-upload task pushed onto the `tasks` array of
`compressAndUploadAssets`: source URL, destination object path, content
type, and the transformation applied. -/
structure UploadTask : Type where
  source : String
  path : String
  contentType : String
  transform : Transform
deriving DecidableEq, Repr

/-- The public URL `uploadToStorage` returns for a stored path. -/
def storageUrl (bucketName path : String) : String :=
  "https://storage.googleapis.com/" ++ bucketName ++ "/" ++ path

/-- `compressImage(url, spaceId, name, maxWidth)`: recompress to WebP and
store at `models/<spaceId>/<name>.webp`. -/
def compressImageTask (url spaceId name : String) (maxWidth : Option Nat) :
    UploadTask :=
  ⟨url, "models/" ++ spaceId ++ "/" ++ name ++ ".webp", "image/webp",
    Transform.webpRecompress maxWidth⟩

/-- `reuploadBinary(url, spaceId, name, contentType)`: copy verbatim to
`models/<spaceId>/<name>`. -/
def reuploadBinaryTask (url spaceId name contentType : String) : UploadTask :=
  ⟨url, "models/" ++ spaceId ++ "/" ++ name, contentType, Transform.verbatim⟩

/-- The `if (x) tasks.push(make(x))` pattern of `compressAndUploadAssets`:
a task is created exactly when the optional URL is present and truthy. -/
def condTask (u : Option String) (mk : String → UploadTask) :
    Option UploadTask :=
  match u with
  | some url => if jsTruthy (some url) then some (mk url) else none
  | none => none

/-- `compressAndUploadAssets(spaceId, assets)` from `src/lib/compress.ts`:
the set of upload tasks fanned out over `Promise.all`, and the
`CompressedUrls` record whose fields are assigned by the tasks that ran. -/
def compressAndUploadAssets (bucketName spaceId : String)
    (assets : WorldAssets) : CompressedUrls × List UploadTask :=
  let spz : Option SpzUrls := assets.splats.bind (fun s => s.spz_urls)
  let thumbTask := condTask assets.thumbnail_url
    (fun url => compressImageTask url spaceId "thumbnail" (some 800))
  let panoTask := condTask assets.panorama_url
    (fun url => compressImageTask url spaceId "panorama" none)
  let splatUrl : Option String :=
    jsOr (jsOr (spz.bind (fun s => s.full_res)) (spz.bind (fun s => s.res500k)))
      (spz.bind (fun s => s.res100k))
  let splatTask := condTask splatUrl
    (fun url => reuploadBinaryTask url spaceId "model.spz"
      "application/octet-stream")
  let splat500Task := condTask (spz.bind (fun s => s.res500k))
    (fun url => reuploadBinaryTask url spaceId "model-500k.spz"
      "application/octet-stream")
  let splat100Task := condTask (spz.bind (fun s => s.res100k))
    (fun url => reuploadBinaryTask url spaceId "model-100k.spz"
      "application/octet-stream")
  let meshTask := condTask (assets.mesh.bind (fun m => m.glb_url))
    (fun url => reuploadBinaryTask url spaceId "model.glb"
      "model/gltf-binary")
  let taskUrl : Option UploadTask → Option String :=
    fun t => t.map (fun t => storageUrl bucketName t.path)
  let result : CompressedUrls :=
    { thumbnailUrl := taskUrl thumbTask
      panoramaUrl := taskUrl panoTask
      splatUrl := taskUrl splatTask
      splatUrl500k := taskUrl splat500Task
      splatUrl100k := taskUrl splat100Task
      meshUrl := taskUrl meshTask }
  (result,
    List.filterMap id
      [thumbTask, panoTask, splatTask, splat500Task, splat100Task, meshTask])

/-! ## Space updates made by the routes

Each function below is `updateSpace` (the last-write-wins merge of
`src/lib/storage.ts`, which drops `undefined`-valued keys and stamps
`updatedAt`) specialised to the literal update object passed at one call
site. -/

/-- The space document built by `POST /api/spaces` (`src/routes/spaces.ts`):
a fresh space with `status: "uploading"` and no generation data yet. -/
def newSpace (id teamId uid name address description : String)
    (imageCount : Nat) (now : Nat) : SpaceDoc :=
  { id := id, teamId := teamId, createdBy := uid, name := name,
    address := address, description := description, status := "uploading",
    imageCount := imageCount, createdAt := now, updatedAt := now }

/-- `updateSpace(spaceId, { originalImageUrl: imageUrls[0], imageUrls,
imageCount: imageUrls.length })` from `POST /api/generate`; when `urls` is
empty, `imageUrls[0]` is `undefined` and the key is dropped by
`updateSpace`'s filter. -/
def imagesUpdate (s : SpaceDoc) (urls : List String) (now : Nat) : SpaceDoc :=
  { s with originalImageUrl := (urls.head?).or s.originalImageUrl,
           imageUrls := some urls,
           imageCount := urls.length,
           updatedAt := now }

/-- `updateSpace(spaceId, { operationId, status: "generating" })` from
`POST /api/generate`. -/
def generateUpdate (s : SpaceDoc) (opId : String) (now : Nat) : SpaceDoc :=
  { s with operationId := some opId, status := "generating",
           updatedAt := now }

/-- `updateSpace(space.id, { status: "ready", worldId, …urls…, marbleUrl })`
from `GET /api/status/:operationId` on a completed operation: the asset URL
keys whose value is `undefined` (assets the world did not have) are dropped
by `updateSpace`'s filter, leaving the stored fields unchanged. -/
def readyUpdate (s : SpaceDoc) (worldId : String) (c : CompressedUrls)
    (marbleUrl : Option String) (now : Nat) : SpaceDoc :=
  { s with status := "ready",
           worldId := some worldId,
           thumbnailUrl := c.thumbnailUrl.or s.thumbnailUrl,
           panoramaUrl := c.panoramaUrl.or s.panoramaUrl,
           splatUrl := c.splatUrl.or s.splatUrl,
           splatUrl500k := c.splatUrl500k.or s.splatUrl500k,
           splatUrl100k := c.splatUrl100k.or s.splatUrl100k,
           meshUrl := c.meshUrl.or s.meshUrl,
           marbleUrl := marbleUrl.or s.marbleUrl,
           updatedAt := now }

/-- `updateSpace(space.id, { status: "failed", errorMessage })` from
`GET /api/status/:operationId` on a failed operation. -/
def failedUpdate (s : SpaceDoc) (msg : String) (now : Nat) : SpaceDoc :=
  { s with status := "failed", errorMessage := some msg, updatedAt := now }

/-- The `updateSpaceSchema` payload of `PATCH /api/spaces/:id`
(`src/lib/schemas.ts`): an optional `name` / `address` / `description`. -/
structure MetaUpdate : Type where
  name : Option String := none
  address : Option String := none
  description : Option String := none
deriving DecidableEq, Repr

/-- `updateSpace(id, parsed.data)` from `PATCH /api/spaces/:id`. -/
def metaUpdate (s : SpaceDoc) (u : MetaUpdate) (now : Nat) : SpaceDoc :=
  { s with name := u.name.getD s.name,
           address := u.address.getD s.address,
           description := u.description.getD s.description,
           updatedAt := now }

/-! ## The space lifecycle (claim C1)

Every write to the `spaces` collection in the repository happens in one of
the routes below; `SpaceOp` enumerates those writes with their request data
and the externally supplied values (fresh ids, operation results, clock) as
parameters, and `applySpaceOp` reproduces each route's guards and effect on
the collection.  The auth context is represented by its `teamId` (the routes
touch spaces only through `ctx.teamId`). -/

inductive SpaceOp : Type where
  /-- `POST /api/spaces` (after auth + schema validation). -/
  | create (id ctxTeam uid name address description : String)
      (imageCount : Nat) (now : Nat)
  /-- `POST /api/generate`: the optional image-upload write followed by the
  `status: "generating"` write (`imgs = some urls` for the multipart branch,
  `none` for the text-only branch). -/
  | generate (ctxTeam spaceId opId : String) (imgs : Option (List String))
      (now : Nat)
  /-- `POST /api/generate` aborted by an error after the image-upload write
  but before the `status: "generating"` write. -/
  | uploadImagesOnly (ctxTeam spaceId : String) (urls : List String)
      (now : Nat)
  /-- `GET /api/status/:operationId`, operation done with a response. -/
  | pollReady (ctxTeam opId worldId : String) (marbleUrl : Option String)
      (c : CompressedUrls) (now : Nat)
  /-- `GET /api/status/:operationId`, operation done with an error. -/
  | pollFailed (ctxTeam opId msg : String) (now : Nat)
  /-- `PATCH /api/spaces/:id` (after schema validation). -/
  | patchMeta (ctxTeam spaceId : String) (u : MetaUpdate) (now : Nat)
  /-- `DELETE /api/spaces/:id`. -/
  | deleteSpace (ctxTeam spaceId : String)
deriving DecidableEq, Repr

/-- The effect of one request on the `spaces` collection. -/
def applySpaceOp (db : SpaceDB) : SpaceOp → SpaceDB
  | SpaceOp.create id ctxTeam uid name address description imageCount now =>
      putSpace db (newSpace id ctxTeam uid name address description
        imageCount now)
  | SpaceOp.generate ctxTeam spaceId opId imgs now =>
      match getSpace db spaceId with
      | none => db
      | some s =>
          if s.teamId ≠ ctxTeam then db
          else
            let db1 := match imgs with
              | some urls => mapSpace db spaceId
                  (fun t => imagesUpdate t urls now)
              | none => db
            mapSpace db1 spaceId (fun t => generateUpdate t opId now)
  | SpaceOp.uploadImagesOnly ctxTeam spaceId urls now =>
      match getSpace db spaceId with
      | none => db
      | some s =>
          if s.teamId ≠ ctxTeam then db
          else mapSpace db spaceId (fun t => imagesUpdate t urls now)
  | SpaceOp.pollReady ctxTeam opId worldId marbleUrl c now =>
      match List.find? (fun s => s.operationId = some opId)
          (getAllSpaces db ctxTeam) with
      | none => db
      | some s => mapSpace db s.id (fun t => readyUpdate t worldId c
          marbleUrl now)
  | SpaceOp.pollFailed ctxTeam opId msg now =>
      match List.find? (fun s => s.operationId = some opId)
          (getAllSpaces db ctxTeam) with
      | none => db
      | some s => mapSpace db s.id (fun t => failedUpdate t msg now)
  | SpaceOp.patchMeta ctxTeam spaceId u now =>
      match getSpace db spaceId with
      | none => db
      | some s =>
          if s.teamId ≠ ctxTeam then db
          else mapSpace db spaceId (fun t => metaUpdate t u now)
  | SpaceOp.deleteSpace ctxTeam spaceId =>
      match getSpace db spaceId with
      | none => db
      | some s =>
          if s.teamId ≠ ctxTeam then db
          else deleteSpaceDoc db spaceId

/-- Run a request trace against an initially empty `spaces` collection. -/
def runSpaceOps (ops : List SpaceOp) : SpaceDB :=
  List.foldl applySpaceOp [] ops

/-- The four lifecycle states of the spec. -/
def validStatus (s : String) : Prop :=
  s = "uploading" ∨ s = "generating" ∨ s = "ready" ∨ s = "failed"

instance (s : String) : Decidable (validStatus s) := by
  unfold validStatus
  infer_instance

/-! ## Route handlers

Each handler takes the decoded auth outcome (`decodedUid`), the request data,
and the relevant collections, and returns the response (plus the new state
for mutating routes). -/

/-- `GET /api/spaces/:id` from `src/routes/spaces.ts`: 401 without an auth
context, 404 when the space is missing or owned by another team. -/
def getSpaceRoute (teams : TeamDB) (spaces : SpaceDB)
    (decodedUid teamIdHeader : Option String) (id : String) :
    Resp SpaceDoc :=
  match resolveAuthContext decodedUid teamIdHeader teams with
  | none => Resp.err 401 "Unauthorized"
  | some ctx =>
      match getSpace spaces id with
      | none => Resp.err 404 "Space not found"
      | some space =>
          if space.teamId ≠ ctx.teamId then Resp.err 404 "Space not found"
          else Resp.ok space

/-- A room of a tour response, populated with its space
(`space: spaces.find((s) => s.id === room.spaceId) || null`). -/
structure PopulatedRoom : Type where
  room : TourRoom
  space : Option SpaceDoc
deriving DecidableEq, Repr

/-- A tour response with populated rooms (`{ ...tour, rooms: ... }`). -/
structure PopulatedTour : Type where
  tour : Tour
  rooms : List PopulatedRoom
deriving DecidableEq, Repr

/-- The room-population step shared by the tour routes. -/
def populateTour (spaces : SpaceDB) (tour : Tour) : PopulatedTour :=
  let found := getSpacesByIds spaces (tour.rooms.map (fun r => r.spaceId))
  { tour := tour
    rooms := tour.rooms.map (fun room =>
      { room := room
        space := List.find? (fun s => s.id = room.spaceId) found }) }

/-- `GET /api/tours/:id` from `src/routes/tours.ts`. -/
def getTourRoute (teams : TeamDB) (tours : TourDB) (spaces : SpaceDB)
    (decodedUid teamIdHeader : Option String) (id : String) :
    Resp PopulatedTour :=
  match resolveAuthContext decodedUid teamIdHeader teams with
  | none => Resp.err 401 "Unauthorized"
  | some ctx =>
      match getTour tours id with
      | none => Resp.err 404 "Tour not found"
      | some tour =>
          if tour.teamId ≠ ctx.teamId then Resp.err 404 "Tour not found"
          else Resp.ok (populateTour spaces tour)

/-- `GET /api/t/:token` from `src/routes/public.ts` (no auth): 404 unless
the token lookup finds a tour and that tour is public. -/
def publicTourRoute (tours : TourDB) (spaces : SpaceDB) (token : String) :
    Resp PopulatedTour :=
  match getTourByToken tours token with
  | none => Resp.err 404 "Not found"
  | some tour =>
      if !tour.isPublic then Resp.err 404 "Not found"
      else Resp.ok (populateTour spaces tour)

/-- The persistent state touched by `DELETE /api/spaces/:id`: the `spaces`
and `tours` collections and the object-storage paths. -/
structure AppState : Type where
  spaces : SpaceDB
  tours : TourDB
  files : List String
deriving DecidableEq, Repr

/-- `DELETE /api/spaces/:id` from `src/routes/spaces.ts`: delete the space
document, clean up the storage files under the space's prefixes, then remove
the space's rooms from every tour of the team that references it
(`for (const tour of tours) if (tour.rooms.some(...)) removeRoomFromTour`). -/
def deleteSpaceRoute (teams : TeamDB) (st : AppState)
    (decodedUid teamIdHeader : Option String) (id : String) (now : Nat) :
    Resp Unit × AppState :=
  match resolveAuthContext decodedUid teamIdHeader teams with
  | none => (Resp.err 401 "Unauthorized", st)
  | some ctx =>
      match getSpace st.spaces id with
      | none => (Resp.err 404 "Space not found", st)
      | some existing =>
          if existing.teamId ≠ ctx.teamId then
            (Resp.err 404 "Space not found", st)
          else
            let spaces' := deleteSpaceDoc st.spaces id
            let files' := deleteSpaceFiles st.files id
            let targets := List.filter
              (fun t => t.rooms.any (fun r => r.spaceId = id))
              (getAllTours st.tours ctx.teamId)
            let tours' := List.foldl
              (fun db t => (removeRoomFromTour db t.id id now).2)
              st.tours targets
            (Resp.ok (), { spaces := spaces', tours := tours',
                           files := files' })

/-- `POST /api/tours/:id/rooms` from `src/routes/tours.ts`: the new room's
`order` is the current room count of the tour. -/
def addRoomRoute (teams : TeamDB) (tours : TourDB)
    (decodedUid teamIdHeader : Option String) (id spaceId label : String)
    (now : Nat) : Resp Tour × TourDB :=
  match resolveAuthContext decodedUid teamIdHeader teams with
  | none => (Resp.err 401 "Unauthorized", tours)
  | some ctx =>
      match getTour tours id with
      | none => (Resp.err 404 "Tour not found", tours)
      | some tour =>
          if tour.teamId ≠ ctx.teamId then
            (Resp.err 404 "Tour not found", tours)
          else
            let room : TourRoom := ⟨spaceId, label, tour.rooms.length⟩
            match addRoomToTour tours id room now with
            | (some t', db') => (Resp.ok t', db')
            | (none, db') => (Resp.err 404 "Tour not found", db')

/-- `DELETE /api/teams/:id` from `src/routes/teams.ts`: member check, then
the personal-team guard, the owner guard, and the owned-resources guard,
before the document is deleted. -/
def deleteTeamRoute (teams : TeamDB) (spaces : SpaceDB) (tours : TourDB)
    (decodedUid : Option String) (id : String) : Resp Unit × TeamDB :=
  match decodedUid with
  | none => (Resp.err 401 "Unauthorized", teams)
  | some uid =>
      match getTeam teams id with
      | none => (Resp.err 404 "Team not found", teams)
      | some team =>
          if uid ∉ team.memberIds then (Resp.err 404 "Team not found", teams)
          else if team.type = "personal" then
            (Resp.err 400 "Cannot delete personal team", teams)
          else if team.ownerId ≠ uid then
            (Resp.err 403 "Only the team owner can delete the team", teams)
          else if (getAllSpaces spaces id).length > 0 ∨
              (getAllTours tours id).length > 0 then
            (Resp.err 400 "Cannot delete team with existing spaces or tours",
              teams)
          else (Resp.ok (), deleteTeamDoc teams id)

/-- `DELETE /api/teams/:id/members` (leave team) from
`src/routes/teams.ts`. -/
def leaveTeamRoute (teams : TeamDB) (decodedUid : Option String)
    (id : String) (now : Nat) : Resp Unit × TeamDB :=
  match decodedUid with
  | none => (Resp.err 401 "Unauthorized", teams)
  | some uid =>
      match getTeam teams id with
      | none => (Resp.err 404 "Team not found", teams)
      | some team =>
          if uid ∉ team.memberIds then (Resp.err 404 "Team not found", teams)
          else if team.type = "personal" then
            (Resp.err 400 "Cannot leave personal team", teams)
          else if team.ownerId = uid then
            (Resp.err 400 "Owner cannot leave the team", teams)
          else (Resp.ok (), (removeMemberFromTeam teams id uid now).2)

/-! ## Helper lemmas -/

theorem insertBy_perm {α : Type} (lt : α → α → Bool) (x : α) (l : List α) :
    (insertBy lt x l).Perm (x :: l) := by
  induction l with
  | nil => simp [insertBy]
  | cons y ys ih =>
      simp only [insertBy]
      by_cases h : lt x y = true
      · simp [h]
      · simp only [if_neg h]
        exact List.Perm.trans (List.Perm.cons y ih) (List.Perm.swap x y ys)

theorem sortBy_perm {α : Type} (lt : α → α → Bool) (l : List α) :
    (sortBy lt l).Perm l := by
  induction l with
  | nil => simp [sortBy]
  | cons x xs ih =>
      exact List.Perm.trans (insertBy_perm lt x (sortBy lt xs))
        (List.Perm.cons x ih)

theorem mem_insertBy {α : Type} {lt : α → α → Bool} {x a : α} {l : List α}
    (h : a ∈ insertBy lt x l) : a = x ∨ a ∈ l := by
  have := (insertBy_perm lt x l).mem_iff.mp h
  simpa using this

theorem pairwise_insertBy {α : Type} {le : α → α → Prop} {lt : α → α → Bool}
    (hlt : ∀ a b, lt a b = true → le a b)
    (hnlt : ∀ a b, lt a b = false → le b a)
    (htrans : ∀ a b c, le a b → le b c → le a c)
    (x : α) (l : List α) (h : l.Pairwise le) :
    (insertBy lt x l).Pairwise le := by
  induction l with
  | nil => simp [insertBy]
  | cons y ys ih =>
      rcases List.pairwise_cons.mp h with ⟨hy, hys⟩
      simp only [insertBy]
      by_cases hxy : lt x y = true
      · simp only [if_pos hxy]
        refine List.pairwise_cons.mpr ⟨?_, h⟩
        intro a ha
        rcases List.mem_cons.mp ha with rfl | ha
        · exact hlt x a hxy
        · exact htrans x y a (hlt x y hxy) (hy a ha)
      · simp only [if_neg hxy]
        refine List.pairwise_cons.mpr ⟨?_, ih hys⟩
        intro a ha
        rcases mem_insertBy ha with rfl | ha
        · exact hnlt a y (by simpa using hxy)
        · exact hy a ha

theorem sortBy_pairwise {α : Type} {le : α → α → Prop} {lt : α → α → Bool}
    (hlt : ∀ a b, lt a b = true → le a b)
    (hnlt : ∀ a b, lt a b = false → le b a)
    (htrans : ∀ a b c, le a b → le b c → le a c)
    (l : List α) : (sortBy lt l).Pairwise le := by
  induction l with
  | nil => simp [sortBy]
  | cons x xs ih =>
      exact pairwise_insertBy hlt hnlt htrans x (sortBy lt xs) ih

theorem objGet_append (a b : JsObj) (k : String) :
    objGet (a ++ b) k = (objGet b k).or (objGet a k) := by
  simp only [objGet, List.reverse_append, List.find?_append]
  cases List.find? (fun p => p.1 = k) b.reverse with
  | none => simp
  | some p => simp

theorem objGet_cons (p : String × JsVal) (rest : JsObj) (k : String) :
    objGet (p :: rest) k =
      (objGet rest k).or (if p.1 = k then some p.2 else none) := by
  have h : p :: rest = [p] ++ rest := rfl
  rw [h, objGet_append]
  congr 1
  simp only [objGet, List.reverse_cons, List.reverse_nil, List.nil_append,
    List.find?]
  by_cases hk : p.1 = k
  · simp [hk]
  · simp [hk]

theorem objGet_eq_none_iff (u : JsObj) (k : String) :
    objGet u k = none ↔ k ∉ u.map (fun p => p.1) := by
  induction u with
  | nil => simp [objGet]
  | cons p rest ih =>
      rw [objGet_cons]
      cases hr : objGet rest k with
      | some v =>
          simp only [Option.or]
          constructor
          · intro h
            exact absurd h (by simp)
          · intro h
            exact absurd (ih.mpr (by simp_all)) (by simp [hr])
      | none =>
          simp only [Option.or]
          by_cases hk : p.1 = k
          · simp [hk]
          · have hnotk : ¬ k = p.1 := fun hh => hk hh.symm
            simp [hk, ih.mp hr, hnotk]

theorem objGet_cleanUndef_none {u : JsObj} {k : String}
    (h : objGet u k = none) : objGet (cleanUndef u) k = none := by
  rw [objGet_eq_none_iff] at h ⊢
  intro hmem
  rcases List.mem_map.mp hmem with ⟨q, hq, hq1⟩
  exact h (List.mem_map.mpr ⟨q, (List.mem_filter.mp hq).1, hq1⟩)

theorem objGet_cleanUndef_undef {u : JsObj} {k : String}
    (hu : (u.map (fun p => p.1)).Nodup)
    (h : objGet u k = some JsVal.undef) :
    objGet (cleanUndef u) k = none := by
  induction u with
  | nil => simp [objGet] at h
  | cons p rest ih =>
      simp only [List.map_cons, List.nodup_cons] at hu
      rcases hu with ⟨hnotin, hnd⟩
      rw [objGet_cons] at h
      by_cases hk : p.1 = k
      · have hrest : objGet rest k = none := by
          rw [objGet_eq_none_iff]
          rw [hk] at hnotin
          exact hnotin
        rw [hrest] at h
        simp only [Option.or, if_pos hk] at h
        have hp2 : p.2 = JsVal.undef := by
          exact Option.some.inj h
        have hclean : cleanUndef (p :: rest) = cleanUndef rest := by
          simp [cleanUndef, hp2]
        rw [hclean]
        exact objGet_cleanUndef_none hrest
      · cases hr : objGet rest k with
        | some v =>
            rw [hr] at h
            simp only [Option.or] at h
            have hv : v = JsVal.undef := Option.some.inj h
            subst hv
            have hcr : objGet (cleanUndef rest) k = none := ih hnd hr
            by_cases hkeep : (p.2 != JsVal.undef) = true
            · have hclean : cleanUndef (p :: rest) = p :: cleanUndef rest := by
                simp [cleanUndef, hkeep]
              rw [hclean, objGet_cons, hcr]
              simp [Option.or, hk]
            · have hclean : cleanUndef (p :: rest) = cleanUndef rest := by
                simp only [cleanUndef, List.filter]
                rw [show (p.2 != JsVal.undef) = false by simpa using hkeep]
              rw [hclean]
              exact hcr
        | none =>
            rw [hr] at h
            simp [Option.or, hk] at h

theorem objGet_cleanUndef_some {u : JsObj} {k : String} {v : JsVal}
    (hu : (u.map (fun p => p.1)).Nodup)
    (h : objGet u k = some v) (hv : v ≠ JsVal.undef) :
    objGet (cleanUndef u) k = some v := by
  induction u with
  | nil => simp [objGet] at h
  | cons p rest ih =>
      simp only [List.map_cons, List.nodup_cons] at hu
      rcases hu with ⟨hnotin, hnd⟩
      rw [objGet_cons] at h
      by_cases hk : p.1 = k
      · have hrest : objGet rest k = none := by
          rw [objGet_eq_none_iff]
          rw [hk] at hnotin
          exact hnotin
        rw [hrest] at h
        simp only [Option.or, if_pos hk] at h
        have hp2 : p.2 = v := Option.some.inj h
        have hkeep : (p.2 != JsVal.undef) = true := by
          simpa [hp2] using hv
        have hclean : cleanUndef (p :: rest) = p :: cleanUndef rest := by
          simp [cleanUndef, hkeep]
        rw [hclean, objGet_cons, objGet_cleanUndef_none hrest]
        simp [Option.or, hk, hp2]
      · cases hr : objGet rest k with
        | some w =>
            rw [hr] at h
            simp only [Option.or] at h
            have hw : w = v := Option.some.inj h
            subst hw
            have hcr : objGet (cleanUndef rest) k = some w := ih hnd hr
            by_cases hkeep : (p.2 != JsVal.undef) = true
            · have hclean : cleanUndef (p :: rest) = p :: cleanUndef rest := by
                simp [cleanUndef, hkeep]
              rw [hclean, objGet_cons, hcr]
              simp [Option.or]
            · have hclean : cleanUndef (p :: rest) = cleanUndef rest := by
                simp only [cleanUndef, List.filter]
                rw [show (p.2 != JsVal.undef) = false by simpa using hkeep]
              rw [hclean]
              exact hcr
        | none =>
            rw [hr] at h
            simp [Option.or, hk] at h

theorem getTeam_mapTeam_const (db : TeamDB) (id : String) (t' : Team)
    (hid : t'.id = id) :
    getTeam (mapTeam db id (fun _ => t')) id =
      (getTeam db id).map (fun _ => t') := by
  induction db with
  | nil => rfl
  | cons t rest ih =>
      simp only [getTeam, mapTeam, List.map_cons, List.find?] at *
      by_cases ht : t.id = id
      · simp only [if_pos ht]
        rw [show (decide (t'.id = id)) = true by simp [hid]]
        rw [show (decide (t.id = id)) = true by simp [ht]]
        rfl
      · simp only [if_neg ht]
        rw [show (decide (t.id = id)) = false by simp [ht]]
        simpa using ih

theorem mem_mapSpace {db : SpaceDB} {id : String} {f : SpaceDoc → SpaceDoc}
    {x : SpaceDoc} (h : x ∈ mapSpace db id f) :
    (∃ a, a ∈ db ∧ x = f a) ∨ x ∈ db := by
  rcases List.mem_map.mp h with ⟨a, ha, hfa⟩
  by_cases hid : a.id = id
  · left
    exact ⟨a, ha, by rw [← hfa, if_pos hid]⟩
  · right
    rw [← hfa, if_neg hid]
    exact ha

theorem mem_mapTour {db : TourDB} {id : String} {f : Tour → Tour}
    {x : Tour} (h : x ∈ mapTour db id f) :
    (∃ a, a ∈ db ∧ a.id = id ∧ x = f a) ∨ (x ∈ db ∧ x.id ≠ id) := by
  rcases List.mem_map.mp h with ⟨a, ha, hfa⟩
  by_cases hid : a.id = id
  · left
    exact ⟨a, ha, hid, by rw [← hfa, if_pos hid]⟩
  · right
    rw [← hfa, if_neg hid]
    exact ⟨ha, hid⟩

theorem strStartsWith_append (a b : String) :
    strStartsWith a (a ++ b) = true := by
  show List.isPrefixOf a.data (a ++ b).data = true
  rw [String.data_append]
  exact List.isPrefixOf_iff_prefix.mpr (List.prefix_append a.data b.data)

theorem mapSpace_validStatus {db : SpaceDB} {id : String} {f : SpaceDoc → SpaceDoc}
    (h : ∀ s ∈ db, validStatus s.status)
    (hf : ∀ s, validStatus s.status → validStatus (f s).status) :
    ∀ s ∈ mapSpace db id f, validStatus s.status := by
  intro s hs
  rcases mem_mapSpace hs with ⟨a, ha, rfl⟩ | hs
  · exact hf a (h a ha)
  · exact h s hs

theorem applySpaceOp_validStatus (db : SpaceDB) (op : SpaceOp)
    (h : ∀ s ∈ db, validStatus s.status) :
    ∀ s ∈ applySpaceOp db op, validStatus s.status := by
  cases op with
  | create id ctxTeam uid name address description imageCount now =>
      intro s hs
      simp only [applySpaceOp, putSpace, List.mem_cons] at hs
      rcases hs with rfl | hs
      · simp [newSpace, validStatus]
      · exact h s ((List.mem_filter.mp hs).1)
  | generate ctxTeam spaceId opId imgs now =>
      simp only [applySpaceOp]
      cases hg : getSpace db spaceId with
      | none => exact h
      | some s0 =>
          by_cases hteam : s0.teamId ≠ ctxTeam
          · simp only [if_pos hteam]
            exact h
          · simp only [if_neg hteam]
            cases imgs with
            | none =>
                exact mapSpace_validStatus h
                  (fun s _ => by simp [generateUpdate, validStatus])
            | some urls =>
                exact mapSpace_validStatus
                  (mapSpace_validStatus h
                    (fun s hv => by simpa [imagesUpdate] using hv))
                  (fun s _ => by simp [generateUpdate, validStatus])
  | uploadImagesOnly ctxTeam spaceId urls now =>
      simp only [applySpaceOp]
      cases hg : getSpace db spaceId with
      | none => exact h
      | some s0 =>
          by_cases hteam : s0.teamId ≠ ctxTeam
          · simp only [if_pos hteam]
            exact h
          · simp only [if_neg hteam]
            exact mapSpace_validStatus h
              (fun s hv => by simpa [imagesUpdate] using hv)
  | pollReady ctxTeam opId worldId marbleUrl c now =>
      simp only [applySpaceOp]
      cases hf : List.find? (fun s => s.operationId = some opId)
          (getAllSpaces db ctxTeam) with
      | none => exact h
      | some s0 =>
          exact mapSpace_validStatus h
            (fun s _ => by simp [readyUpdate, validStatus])
  | pollFailed ctxTeam opId msg now =>
      simp only [applySpaceOp]
      cases hf : List.find? (fun s => s.operationId = some opId)
          (getAllSpaces db ctxTeam) with
      | none => exact h
      | some s0 =>
          exact mapSpace_validStatus h
            (fun s _ => by simp [failedUpdate, validStatus])
  | patchMeta ctxTeam spaceId u now =>
      simp only [applySpaceOp]
      cases hg : getSpace db spaceId with
      | none => exact h
      | some s0 =>
          by_cases hteam : s0.teamId ≠ ctxTeam
          · simp only [if_pos hteam]
            exact h
          · simp only [if_neg hteam]
            exact mapSpace_validStatus h
              (fun s hv => by simpa [metaUpdate] using hv)
  | deleteSpace ctxTeam spaceId =>
      simp only [applySpaceOp]
      cases hg : getSpace db spaceId with
      | none => exact h
      | some s0 =>
          by_cases hteam : s0.teamId ≠ ctxTeam
          · simp only [if_pos hteam]
            exact h
          · simp only [if_neg hteam]
            intro s hs
            exact h s ((List.mem_filter.mp hs).1)

theorem foldl_validStatus (ops : List SpaceOp) :
    ∀ db : SpaceDB, (∀ s ∈ db, validStatus s.status) →
      ∀ s ∈ List.foldl applySpaceOp db ops, validStatus s.status := by
  induction ops with
  | nil => intro db h; exact h
  | cons op rest ih =>
      intro db h
      exact ih (applySpaceOp db op) (applySpaceOp_validStatus db op h)

/-! ## Claim theorems -/

/-- C1: every space stored by any request trace has a status among
`uploading` / `generating` / `ready` / `failed`, and the individual
operations write exactly the lifecycle statuses the spec names:
`POST /api/spaces` creates with `uploading`, `POST /api/generate` writes
`generating`, the status poll writes `ready` on a completed response and
`failed` on an error, and the remaining space writes (image upload, PATCH
metadata) never change the status. -/
theorem C1_status_lifecycle (ops : List SpaceOp) :
    (∀ s ∈ runSpaceOps ops, validStatus s.status) ∧
    (∀ id team uid name address description imageCount now,
      (newSpace id team uid name address description imageCount now).status =
        "uploading") ∧
    (∀ s opId now, (generateUpdate s opId now).status = "generating") ∧
    (∀ s worldId c marbleUrl now,
      (readyUpdate s worldId c marbleUrl now).status = "ready") ∧
    (∀ s msg now, (failedUpdate s msg now).status = "failed") ∧
    (∀ s u now, (metaUpdate s u now).status = s.status) ∧
    (∀ s urls now, (imagesUpdate s urls now).status = s.status) := by
  refine ⟨?_, ?_, ?_, ?_, ?_, ?_, ?_⟩
  · exact foldl_validStatus ops [] (by intro s hs; cases hs)
  · intro id team uid name address description imageCount now
    rfl
  · intro s opId now
    rfl
  · intro s worldId c marbleUrl now
    rfl
  · intro s msg now
    rfl
  · intro s u now
    rfl
  · intro s urls now
    rfl

/-- Witness for C1: a concrete trace — create a space, start generation,
poll to completion — and the concrete space it stores has a valid status. -/
theorem C1_status_lifecycle_witness :
    ∀ s ∈ runSpaceOps
      [SpaceOp.create "s1" "t1" "u1" "Room" "" "" 1 0,
       SpaceOp.generate "t1" "s1" "op1" (some ["img0"]) 1,
       SpaceOp.pollReady "t1" "op1" "w1" none
         { thumbnailUrl := some "url" } 2],
      validStatus s.status := by
  intro s hs
  exact (C1_status_lifecycle _).1 s hs

theorem objGet_singleton (p : String × JsVal) (k : String) :
    objGet [p] k = if p.1 = k then some p.2 else none := by
  rw [objGet_cons]
  cases hk : (if p.1 = k then (some p.2 : Option JsVal) else none) <;>
    simp [objGet, Option.or]

/-- C9: the three update functions perform a last-write-wins merge on an
existing document — every key named in the update takes the update's value,
`updatedAt` is stamped with the current time, and every other stored key
keeps its previous value; `updateSpace` additionally drops update entries
whose value is `undefined` (leaving those keys unchanged), while
`updateTour` / `updateTeam` write the update entries as they are; on a
non-existent document all three return `null` and store nothing.  (The
update object is a real JS object: one binding per key.) -/
theorem C9_last_write_wins_merge (d u : JsObj) (now : JsVal) (k : String)
    (db : DocDB) (id : String) :
    (objGet (updateSpaceMerge d u now) "updatedAt" = some now) ∧
    (objGet (updateTourMerge d u now) "updatedAt" = some now) ∧
    (objGet (updateTeamMerge d u now) "updatedAt" = some now) ∧
    (k ≠ "updatedAt" → (u.map (fun p => p.1)).Nodup →
      (∀ v, objGet u k = some v → v ≠ JsVal.undef →
        objGet (updateSpaceMerge d u now) k = some v) ∧
      (objGet u k = some JsVal.undef →
        objGet (updateSpaceMerge d u now) k = objGet d k)) ∧
    (k ≠ "updatedAt" → objGet u k = none →
      objGet (updateSpaceMerge d u now) k = objGet d k) ∧
    (k ≠ "updatedAt" →
      (∀ v, objGet u k = some v →
        objGet (updateTourMerge d u now) k = some v) ∧
      (objGet u k = none →
        objGet (updateTourMerge d u now) k = objGet d k)) ∧
    (k ≠ "updatedAt" →
      (∀ v, objGet u k = some v →
        objGet (updateTeamMerge d u now) k = some v) ∧
      (objGet u k = none →
        objGet (updateTeamMerge d u now) k = objGet d k)) ∧
    (docGet db id = none →
      updateSpaceDoc db id u now = (none, db) ∧
      updateTourDoc db id u now = (none, db) ∧
      updateTeamDoc db id u now = (none, db)) := by
  have hts : objGet (updateSpaceMerge d u now) k =
      ((objGet [(("updatedAt" : String), now)] k).or
        (objGet (cleanUndef u) k)).or (objGet d k) := by
    simp only [updateSpaceMerge, objGet_append]
    exact Option.or_assoc.symm
  have htt : objGet (updateTourMerge d u now) k =
      ((objGet [(("updatedAt" : String), now)] k).or (objGet u k)).or
        (objGet d k) := by
    simp only [updateTourMerge, objGet_append]
    exact Option.or_assoc.symm
  have httm : objGet (updateTeamMerge d u now) k =
      ((objGet [(("updatedAt" : String), now)] k).or (objGet u k)).or
        (objGet d k) := by
    simp only [updateTeamMerge, objGet_append]
    exact Option.or_assoc.symm
  refine ⟨?_, ?_, ?_, ?_, ?_, ?_, ?_, ?_⟩
  · simp only [updateSpaceMerge, objGet_append, objGet_singleton]
    simp [Option.or]
  · simp only [updateTourMerge, objGet_append, objGet_singleton]
    simp [Option.or]
  · simp only [updateTeamMerge, objGet_append, objGet_singleton]
    simp [Option.or]
  · intro hk hu
    have hstamp : objGet [(("updatedAt" : String), now)] k = none := by
      rw [objGet_singleton, if_neg (fun hh => hk hh.symm)]
    constructor
    · intro v hv hundef
      rw [hts, hstamp, objGet_cleanUndef_some hu hv hundef]
      simp [Option.or]
    · intro hv
      rw [hts, hstamp, objGet_cleanUndef_undef hu hv]
      simp [Option.or]
  · intro hk hv
    have hstamp : objGet [(("updatedAt" : String), now)] k = none := by
      rw [objGet_singleton, if_neg (fun hh => hk hh.symm)]
    rw [hts, hstamp, objGet_cleanUndef_none hv]
    simp [Option.or]
  · intro hk
    have hstamp : objGet [(("updatedAt" : String), now)] k = none := by
      rw [objGet_singleton, if_neg (fun hh => hk hh.symm)]
    constructor
    · intro v hv
      rw [htt, hstamp, hv]
      simp [Option.or]
    · intro hv
      rw [htt, hstamp, hv]
      simp [Option.or]
  · intro hk
    have hstamp : objGet [(("updatedAt" : String), now)] k = none := by
      rw [objGet_singleton, if_neg (fun hh => hk hh.symm)]
    constructor
    · intro v hv
      rw [httm, hstamp, hv]
      simp [Option.or]
    · intro hv
      rw [httm, hstamp, hv]
      simp [Option.or]
  · intro hmiss
    exact ⟨by simp [updateSpaceDoc, hmiss], by simp [updateTourDoc, hmiss],
      by simp [updateTeamDoc, hmiss]⟩

/-- Witness for C9 at concrete data: an update that renames, a key set to
`undefined` that `updateSpace` leaves unchanged, and an untouched key that
keeps its value. -/
theorem C9_last_write_wins_merge_witness :
    objGet
      (updateSpaceMerge
        [("name", JsVal.str "old"), ("city", JsVal.str "TLV")]
        [("name", JsVal.str "new"), ("city", JsVal.undef)]
        (JsVal.str "T1")) "city" =
      some (JsVal.str "TLV") := by
  have h := (C9_last_write_wins_merge
    [("name", JsVal.str "old"), ("city", JsVal.str "TLV")]
    [("name", JsVal.str "new"), ("city", JsVal.undef)]
    (JsVal.str "T1") "city" [] "x").2.2.2.1 (by decide) (by decide)
  rw [h.2 (by decide)]
  decide

/-- C10: `addMemberToTeam` is idempotent — when the user is already a member
it returns the stored team and writes nothing (`updatedAt` included), running
it twice leaves exactly the state one run leaves (same stored `memberIds`),
and it preserves duplicate-freeness of every team's `memberIds`. -/
theorem C10_add_member_idempotent (db : TeamDB) (tid uid : String)
    (n1 n2 : Nat) :
    (∀ team, getTeam db tid = some team → uid ∈ team.memberIds →
      addMemberToTeam db tid uid n1 = (some team, db)) ∧
    ((addMemberToTeam (addMemberToTeam db tid uid n1).2 tid uid n2) =
      ((addMemberToTeam db tid uid n1).1, (addMemberToTeam db tid uid n1).2)) ∧
    ((∀ t ∈ db, t.memberIds.Nodup) →
      ∀ t ∈ (addMemberToTeam db tid uid n1).2, t.memberIds.Nodup) ∧
    (∀ t', (addMemberToTeam db tid uid n1).1 = some t' →
      (∀ t ∈ db, t.memberIds.Nodup) → t'.memberIds.Nodup) := by
  have hnodup : ∀ team : Team, team.memberIds.Nodup → uid ∉ team.memberIds →
      (team.memberIds ++ [uid]).Nodup := by
    intro team hnd hmem
    refine List.Nodup.append hnd (List.nodup_singleton uid) ?_
    intro a ha hau
    rw [List.mem_singleton.mp hau] at ha
    exact hmem ha
  refine ⟨?_, ?_, ?_, ?_⟩
  · intro team hteam hmem
    simp [addMemberToTeam, hteam, hmem]
  · cases hg : getTeam db tid with
    | none =>
        simp [addMemberToTeam, hg]
    | some team =>
        by_cases hmem : uid ∈ team.memberIds
        · simp [addMemberToTeam, hg, hmem]
        · have hstep : addMemberToTeam db tid uid n1 =
            (some { team with memberIds := team.memberIds ++ [uid],
                              updatedAt := n1 },
             mapTeam db tid (fun _ =>
               { team with memberIds := team.memberIds ++ [uid],
                           updatedAt := n1 })) := by
            simp [addMemberToTeam, hg, hmem]
          rw [hstep]
          have htid : team.id = tid := by
            have := List.find?_some hg
            simpa using this
          have hg2 : getTeam (mapTeam db tid (fun _ =>
              { team with memberIds := team.memberIds ++ [uid],
                          updatedAt := n1 })) tid =
              some { team with memberIds := team.memberIds ++ [uid],
                               updatedAt := n1 } := by
            rw [getTeam_mapTeam_const db tid
              { team with memberIds := team.memberIds ++ [uid],
                          updatedAt := n1 } htid, hg]
            rfl
          have hmem2 : uid ∈ team.memberIds ++ [uid] := by simp
          simp [addMemberToTeam, hg2, hmem2]
  · intro hnd t ht
    cases hg : getTeam db tid with
    | none =>
        simp only [addMemberToTeam, hg] at ht
        exact hnd t ht
    | some team =>
        have hteam : team ∈ db := List.mem_of_find?_eq_some hg
        by_cases hmem : uid ∈ team.memberIds
        · simp only [addMemberToTeam, hg, if_pos hmem] at ht
          exact hnd t ht
        · simp only [addMemberToTeam, hg, if_neg hmem] at ht
          rcases List.mem_map.mp ht with ⟨a, ha, hfa⟩
          by_cases hid : a.id = tid
          · rw [if_pos hid] at hfa
            rw [← hfa]
            exact hnodup team (hnd team hteam) hmem
          · rw [if_neg hid] at hfa
            rw [← hfa]
            exact hnd a ha
  · intro t' hsome hnd
    cases hg : getTeam db tid with
    | none => simp [addMemberToTeam, hg] at hsome
    | some team =>
        have hteam : team ∈ db := List.mem_of_find?_eq_some hg
        by_cases hmem : uid ∈ team.memberIds
        · simp only [addMemberToTeam, hg, if_pos hmem,
            Option.some.injEq] at hsome
          rw [← hsome]
          exact hnd team hteam
        · simp only [addMemberToTeam, hg, if_neg hmem,
            Option.some.injEq] at hsome
          rw [← hsome]
          exact hnodup team (hnd team hteam) hmem

/-- Witness for C10: a concrete team where the user is already a member —
the call returns the team and the collection unchanged. -/
theorem C10_add_member_idempotent_witness :
    addMemberToTeam
      [{ id := "t1", name := "Team", type := "organization",
         ownerId := "u1", memberIds := ["u1", "u2"], inviteCode := "c",
         inviteEnabled := true, createdAt := 0, updatedAt := 0 }]
      "t1" "u2" 5 =
    (some { id := "t1", name := "Team", type := "organization",
            ownerId := "u1", memberIds := ["u1", "u2"], inviteCode := "c",
            inviteEnabled := true, createdAt := 0, updatedAt := 0 },
     [{ id := "t1", name := "Team", type := "organization",
        ownerId := "u1", memberIds := ["u1", "u2"], inviteCode := "c",
        inviteEnabled := true, createdAt := 0, updatedAt := 0 }]) := by
  exact (C10_add_member_idempotent _ "t1" "u2" 5 0).1 _ (by rfl) (by decide)

/-- C5: on a personal team, every member's `DELETE /api/teams/:id` gets
400 "Cannot delete personal team" and `DELETE /api/teams/:id/members` gets
400 "Cannot leave personal team", and both leave the teams collection — so
in particular the team document and its `memberIds` — exactly as it was;
`removeMemberFromTeam` returns `null` for a personal team and writes
nothing. -/
theorem C5_personal_team_guards (teams : TeamDB) (spaces : SpaceDB)
    (tours : TourDB) (uid id : String) (now : Nat) (team : Team)
    (hteam : getTeam teams id = some team)
    (hper : team.type = "personal")
    (hmem : uid ∈ team.memberIds) :
    deleteTeamRoute teams spaces tours (some uid) id =
      (Resp.err 400 "Cannot delete personal team", teams) ∧
    leaveTeamRoute teams (some uid) id now =
      (Resp.err 400 "Cannot leave personal team", teams) ∧
    (∀ u, removeMemberFromTeam teams id u now = (none, teams)) := by
  refine ⟨?_, ?_, ?_⟩
  · simp [deleteTeamRoute, hteam, hmem, hper]
  · simp [leaveTeamRoute, hteam, hmem, hper]
  · intro u
    by_cases hown : team.ownerId = u
    · simp [removeMemberFromTeam, hteam, hown]
    · simp [removeMemberFromTeam, hteam, hown, hper]

/-- Witness for C5: a concrete personal team; deleting it answers 400 and
leaves the collection unchanged. -/
theorem C5_personal_team_guards_witness :
    deleteTeamRoute
      [{ id := "t1", name := "My Team", type := "personal",
         ownerId := "u1", memberIds := ["u1"], inviteCode := "c",
         inviteEnabled := false, createdAt := 0, updatedAt := 0 }]
      [] [] (some "u1") "t1" =
    (Resp.err 400 "Cannot delete personal team",
     [{ id := "t1", name := "My Team", type := "personal",
        ownerId := "u1", memberIds := ["u1"], inviteCode := "c",
        inviteEnabled := false, createdAt := 0, updatedAt := 0 }]) := by
  exact (C5_personal_team_guards _ [] [] "u1" "t1" 0 _
    (by rfl) (by rfl) (by decide)).1

/-- C6: for the owner of an organization team, `DELETE /api/teams/:id`
answers 400 and keeps the team document whenever the team still owns a
space or a tour, and deletes the team exactly when it owns neither. -/
theorem C6_org_team_delete_guard (teams : TeamDB) (spaces : SpaceDB)
    (tours : TourDB) (uid id : String) (team : Team)
    (hteam : getTeam teams id = some team)
    (hmem : uid ∈ team.memberIds)
    (horg : team.type = "organization")
    (hown : team.ownerId = uid) :
    (((getAllSpaces spaces id).length > 0 ∨
        (getAllTours tours id).length > 0) →
      deleteTeamRoute teams spaces tours (some uid) id =
        (Resp.err 400 "Cannot delete team with existing spaces or tours",
         teams) ∧
      getTeam (deleteTeamRoute teams spaces tours (some uid) id).2 id =
        some team) ∧
    ((getAllSpaces spaces id).length = 0 ∧
        (getAllTours tours id).length = 0 →
      (deleteTeamRoute teams spaces tours (some uid) id).1 = Resp.ok () ∧
      getTeam (deleteTeamRoute teams spaces tours (some uid) id).2 id =
        none) := by
  have hper : ¬ team.type = "personal" := by
    rw [horg]
    decide
  constructor
  · intro hres
    have hroute : deleteTeamRoute teams spaces tours (some uid) id =
        (Resp.err 400 "Cannot delete team with existing spaces or tours",
         teams) := by
      simp [deleteTeamRoute, hteam, hmem, hper, hown, hres]
    exact ⟨hroute, by rw [hroute]; exact hteam⟩
  · intro hres
    have hnores : ¬ ((getAllSpaces spaces id).length > 0 ∨
        (getAllTours tours id).length > 0) := by
      omega
    have hroute : deleteTeamRoute teams spaces tours (some uid) id =
        (Resp.ok (), deleteTeamDoc teams id) := by
      simp [deleteTeamRoute, hteam, hmem, hper, hown, hnores]
    refine ⟨by rw [hroute], ?_⟩
    rw [hroute]
    show getTeam (deleteTeamDoc teams id) id = none
    rw [getTeam, List.find?_eq_none]
    intro t ht
    have := (List.mem_filter.mp ht).2
    simpa using this

/-- Witness for C6: a concrete organization team owning one space cannot be
deleted; the same team with no spaces and no tours is deleted. -/
theorem C6_org_team_delete_guard_witness :
    (deleteTeamRoute
      [{ id := "t1", name := "Org", type := "organization",
         ownerId := "u1", memberIds := ["u1"], inviteCode := "c",
         inviteEnabled := true, createdAt := 0, updatedAt := 0 }]
      [{ id := "s1", teamId := "t1", createdBy := "u1", name := "Room",
         address := "", description := "", status := "uploading",
         imageCount := 1, createdAt := 0, updatedAt := 0 }]
      [] (some "u1") "t1" =
      (Resp.err 400 "Cannot delete team with existing spaces or tours",
       [{ id := "t1", name := "Org", type := "organization",
          ownerId := "u1", memberIds := ["u1"], inviteCode := "c",
          inviteEnabled := true, createdAt := 0, updatedAt := 0 }])) ∧
    ((deleteTeamRoute
      [{ id := "t1", name := "Org", type := "organization",
         ownerId := "u1", memberIds := ["u1"], inviteCode := "c",
         inviteEnabled := true, createdAt := 0, updatedAt := 0 }]
      [] [] (some "u1") "t1").1 = Resp.ok ()) := by
  constructor
  · exact ((C6_org_team_delete_guard _ _ [] "u1" "t1" _
      (by rfl) (by decide) (by rfl) (by rfl)).1 (by decide)).1
  · exact ((C6_org_team_delete_guard _ [] [] "u1" "t1" _
      (by rfl) (by decide) (by rfl) (by rfl)).2 (by decide)).1

/-- C7 (amended): `GET /api/t/:token` returns the populated tour exactly
when the token lookup — the *first* stored tour whose `shareToken` equals
the token, per the `limit(1)` query — finds a tour whose `isPublic` is true;
in every other case (no match, or the found tour is private) it answers 404;
and whenever it returns a tour, some stored public tour carries the token. -/
theorem C7_public_tour_token (tours : TourDB) (spaces : SpaceDB)
    (token : String) :
    (∀ t, getTourByToken tours token = some t → t.isPublic = true →
      publicTourRoute tours spaces token =
        Resp.ok (populateTour spaces t)) ∧
    (∀ t, getTourByToken tours token = some t → t.isPublic = false →
      publicTourRoute tours spaces token = Resp.err 404 "Not found") ∧
    (getTourByToken tours token = none →
      publicTourRoute tours spaces token = Resp.err 404 "Not found") ∧
    (∀ t, getTourByToken tours token = some t →
      t ∈ tours ∧ t.shareToken = token) ∧
    (∀ pt, publicTourRoute tours spaces token = Resp.ok pt →
      ∃ t ∈ tours, t.shareToken = token ∧ t.isPublic = true ∧
        pt = populateTour spaces t) := by
  refine ⟨?_, ?_, ?_, ?_, ?_⟩
  · intro t hfind hpub
    simp [publicTourRoute, hfind, hpub]
  · intro t hfind hpriv
    simp [publicTourRoute, hfind, hpriv]
  · intro hnone
    simp [publicTourRoute, hnone]
  · intro t hfind
    refine ⟨List.mem_of_find?_eq_some hfind, ?_⟩
    have := List.find?_some hfind
    simpa using this
  · intro pt hok
    cases hfind : getTourByToken tours token with
    | none => simp [publicTourRoute, hfind] at hok
    | some t =>
        cases hpub : t.isPublic with
        | false => simp [publicTourRoute, hfind, hpub] at hok
        | true =>
            refine ⟨t, List.mem_of_find?_eq_some hfind, ?_, hpub, ?_⟩
            · have := List.find?_some hfind
              simpa using this
            · simp [publicTourRoute, hfind, hpub] at hok
              exact hok.symm

/-- Witness for C7: a concrete public tour reached through its token. -/
theorem C7_public_tour_token_witness :
    publicTourRoute
      [{ id := "tour1", teamId := "t1", createdBy := "u1", name := "Tour",
         address := "", description := "", rooms := [], isPublic := true,
         shareToken := "tok", createdAt := 0, updatedAt := 0 }]
      [] "tok" =
    Resp.ok (populateTour []
      { id := "tour1", teamId := "t1", createdBy := "u1", name := "Tour",
        address := "", description := "", rooms := [], isPublic := true,
        shareToken := "tok", createdAt := 0, updatedAt := 0 }) := by
  exact (C7_public_tour_token _ [] "tok").1 _ (by rfl) (by rfl)

/-- Counterexample for C7 as frozen: when two stored tours share the token
and the first is private, the route answers 404 even though *some* stored
tour with that token is public — so "returns the tour iff some tour's
`shareToken` equals the token and that tour is public" fails on the code. -/
theorem C7_counterexample :
    (publicTourRoute
      [{ id := "tourA", teamId := "t1", createdBy := "u1", name := "A",
         address := "", description := "", rooms := [], isPublic := false,
         shareToken := "tok", createdAt := 0, updatedAt := 0 },
       { id := "tourB", teamId := "t1", createdBy := "u1", name := "B",
         address := "", description := "", rooms := [], isPublic := true,
         shareToken := "tok", createdAt := 1, updatedAt := 1 }]
      [] "tok" = Resp.err 404 "Not found") ∧
    (∃ t ∈ ([{ id := "tourA", teamId := "t1", createdBy := "u1",
               name := "A", address := "", description := "", rooms := [],
               isPublic := false, shareToken := "tok", createdAt := 0,
               updatedAt := 0 },
             { id := "tourB", teamId := "t1", createdBy := "u1",
               name := "B", address := "", description := "", rooms := [],
               isPublic := true, shareToken := "tok", createdAt := 1,
               updatedAt := 1 }] : TourDB),
      t.shareToken = "tok" ∧ t.isPublic = true) := by
  constructor
  · rfl
  · exact ⟨{ id := "tourB", teamId := "t1", createdBy := "u1", name := "B",
             address := "", description := "", rooms := [],
             isPublic := true, shareToken := "tok", createdAt := 1,
             updatedAt := 1 }, by simp, by decide⟩

theorem resolveAuthContext_some {decoded header : Option String}
    {teams : TeamDB} {ctx : AuthContext}
    (h : resolveAuthContext decoded header teams = some ctx) :
    decoded = some ctx.uid ∧ header = some ctx.teamId ∧
      ∃ team, getTeam teams ctx.teamId = some team ∧
        ctx.uid ∈ team.memberIds := by
  cases decoded with
  | none => simp [resolveAuthContext] at h
  | some uid =>
      cases header with
      | none => simp [resolveAuthContext] at h
      | some tid =>
          cases hg : getTeam teams tid with
          | none => simp [resolveAuthContext, hg] at h
          | some team =>
              by_cases hmem : uid ∈ team.memberIds
              · simp only [resolveAuthContext, hg, if_pos hmem,
                  Option.some.injEq] at h
                rw [← h]
                exact ⟨rfl, rfl, team, hg, hmem⟩
              · simp [resolveAuthContext, hg, hmem] at h

/-- C2: `GET /api/spaces/:id` and `GET /api/tours/:id` hand out a resource
only to a caller whose verified uid is a member of the team named in the
`x-team-id` header *and* whose header team owns the resource; without a
resolved auth context the response is 401, with a context but a missing or
foreign-team resource it is 404, and in both failure cases the body carries
no resource. -/
theorem C2_team_scoped_visibility (teams : TeamDB) (spaces : SpaceDB)
    (tours : TourDB) (decoded header : Option String) (id : String) :
    (∀ s, getSpaceRoute teams spaces decoded header id = Resp.ok s →
      ∃ ctx team, resolveAuthContext decoded header teams = some ctx ∧
        decoded = some ctx.uid ∧ header = some ctx.teamId ∧
        getTeam teams ctx.teamId = some team ∧ ctx.uid ∈ team.memberIds ∧
        getSpace spaces id = some s ∧ s.teamId = ctx.teamId) ∧
    (∀ pt, getTourRoute teams tours spaces decoded header id =
        Resp.ok pt →
      ∃ ctx team, resolveAuthContext decoded header teams = some ctx ∧
        decoded = some ctx.uid ∧ header = some ctx.teamId ∧
        getTeam teams ctx.teamId = some team ∧ ctx.uid ∈ team.memberIds ∧
        getTour tours id = some pt.tour ∧ pt.tour.teamId = ctx.teamId ∧
        pt = populateTour spaces pt.tour) ∧
    (resolveAuthContext decoded header teams = none →
      getSpaceRoute teams spaces decoded header id =
        Resp.err 401 "Unauthorized" ∧
      getTourRoute teams tours spaces decoded header id =
        Resp.err 401 "Unauthorized") ∧
    (∀ ctx, resolveAuthContext decoded header teams = some ctx →
      (∀ s, getSpace spaces id = some s → s.teamId ≠ ctx.teamId →
        getSpaceRoute teams spaces decoded header id =
          Resp.err 404 "Space not found") ∧
      (getSpace spaces id = none →
        getSpaceRoute teams spaces decoded header id =
          Resp.err 404 "Space not found") ∧
      (∀ t, getTour tours id = some t → t.teamId ≠ ctx.teamId →
        getTourRoute teams tours spaces decoded header id =
          Resp.err 404 "Tour not found") ∧
      (getTour tours id = none →
        getTourRoute teams tours spaces decoded header id =
          Resp.err 404 "Tour not found")) := by
  refine ⟨?_, ?_, ?_, ?_⟩
  · intro s hok
    cases hctx : resolveAuthContext decoded header teams with
    | none => simp [getSpaceRoute, hctx] at hok
    | some ctx =>
        cases hsp : getSpace spaces id with
        | none => simp [getSpaceRoute, hctx, hsp] at hok
        | some s0 =>
            by_cases hteam : s0.teamId ≠ ctx.teamId
            · simp [getSpaceRoute, hctx, hsp, hteam] at hok
            · simp only [getSpaceRoute, hctx, hsp, if_neg hteam,
                Resp.ok.injEq] at hok
              rcases resolveAuthContext_some hctx with
                ⟨hdec, hhead, team, hgt, hmem⟩
              push_neg at hteam
              exact ⟨ctx, team, rfl, hdec, hhead, hgt, hmem,
                by rw [← hok], by rw [← hok]; exact hteam⟩
  · intro pt hok
    cases hctx : resolveAuthContext decoded header teams with
    | none => simp [getTourRoute, hctx] at hok
    | some ctx =>
        cases htr : getTour tours id with
        | none => simp [getTourRoute, hctx, htr] at hok
        | some t0 =>
            by_cases hteam : t0.teamId ≠ ctx.teamId
            · simp [getTourRoute, hctx, htr, hteam] at hok
            · simp only [getTourRoute, hctx, htr, if_neg hteam,
                Resp.ok.injEq] at hok
              rcases resolveAuthContext_some hctx with
                ⟨hdec, hhead, team, hgt, hmem⟩
              push_neg at hteam
              have hbase : pt.tour = t0 := by
                rw [← hok]
                rfl
              exact ⟨ctx, team, rfl, hdec, hhead, hgt, hmem,
                by rw [hbase], by rw [hbase]; exact hteam,
                by rw [hbase]; exact hok.symm⟩
  · intro hctx
    exact ⟨by simp [getSpaceRoute, hctx],
      by simp [getTourRoute, hctx]⟩
  · intro ctx hctx
    refine ⟨?_, ?_, ?_, ?_⟩
    · intro s hsp hteam
      simp [getSpaceRoute, hctx, hsp, hteam]
    · intro hsp
      simp [getSpaceRoute, hctx, hsp]
    · intro t htr hteam
      simp [getTourRoute, hctx, htr, hteam]
    · intro htr
      simp [getTourRoute, hctx, htr]

/-- Witness for C2: a concrete member of the owning team fetches the space;
the facts the theorem promises hold at that input. -/
theorem C2_team_scoped_visibility_witness :
    ∃ ctx team,
      resolveAuthContext (some "u1") (some "t1")
        [{ id := "t1", name := "Team", type := "personal",
           ownerId := "u1", memberIds := ["u1"], inviteCode := "c",
           inviteEnabled := false, createdAt := 0, updatedAt := 0 }] =
        some ctx ∧
      (some "u1" : Option String) = some ctx.uid ∧
      (some "t1" : Option String) = some ctx.teamId ∧
      getTeam
        [{ id := "t1", name := "Team", type := "personal",
           ownerId := "u1", memberIds := ["u1"], inviteCode := "c",
           inviteEnabled := false, createdAt := 0, updatedAt := 0 }]
        ctx.teamId = some team ∧
      ctx.uid ∈ team.memberIds ∧
      getSpace
        [{ id := "s1", teamId := "t1", createdBy := "u1", name := "Room",
           address := "", description := "", status := "ready",
           imageCount := 1, createdAt := 0, updatedAt := 0 }] "s1" =
        some { id := "s1", teamId := "t1", createdBy := "u1",
               name := "Room", address := "", description := "",
               status := "ready", imageCount := 1, createdAt := 0,
               updatedAt := 0 } ∧
      ({ id := "s1", teamId := "t1", createdBy := "u1", name := "Room",
         address := "", description := "", status := "ready",
         imageCount := 1, createdAt := 0,
         updatedAt := 0 } : SpaceDoc).teamId = ctx.teamId := by
  exact (C2_team_scoped_visibility _ _ [] (some "u1") (some "t1") "s1").1
    _ (by rfl)

theorem addRoomRooms_perm (rooms : List TourRoom) (room : TourRoom) :
    (addRoomRooms rooms room).Perm
      (List.filter (fun r => r.spaceId ≠ room.spaceId) rooms ++ [room]) :=
  sortBy_perm _ _

theorem addRoomRooms_pairwise (rooms : List TourRoom) (room : TourRoom) :
    (addRoomRooms rooms room).Pairwise
      (fun a b => a.order ≤ b.order) := by
  refine sortBy_pairwise ?_ ?_ ?_ _
  · intro a b h
    exact Nat.le_of_lt (of_decide_eq_true h)
  · intro a b h
    exact Nat.le_of_not_lt (of_decide_eq_false h)
  · intro a b c hab hbc
    exact Nat.le_trans hab hbc

theorem addRoomRooms_nodup {rooms : List TourRoom} {room : TourRoom}
    (h : (rooms.map (fun r => r.spaceId)).Nodup) :
    ((addRoomRooms rooms room).map (fun r => r.spaceId)).Nodup := by
  rw [((addRoomRooms_perm rooms room).map
    (fun r => r.spaceId)).nodup_iff]
  rw [List.map_append]
  rw [List.nodup_append]
  refine ⟨?_, List.nodup_singleton _, ?_⟩
  · exact List.Nodup.sublist
      ((List.filter_sublist rooms).map (fun r => r.spaceId)) h
  · intro a ha hb
    rcases List.mem_map.mp ha with ⟨r, hr, hra⟩
    have hne : r.spaceId ≠ room.spaceId := by
      have := (List.mem_filter.mp hr).2
      simpa using this
    rw [List.map_singleton, List.mem_singleton] at hb
    exact hne (by rw [hra, hb])

theorem addRoomRooms_mem (rooms : List TourRoom) (room : TourRoom) :
    room ∈ addRoomRooms rooms room :=
  (addRoomRooms_perm rooms room).mem_iff.mpr
    (List.mem_append_right _ (List.mem_singleton_self room))

theorem addRoomRooms_replace {rooms : List TourRoom} {room r : TourRoom}
    (hmem : r ∈ addRoomRooms rooms room)
    (hsid : r.spaceId = room.spaceId) : r = room := by
  rcases List.mem_append.mp
      ((addRoomRooms_perm rooms room).mem_iff.mp hmem) with hf | hs
  · have := (List.mem_filter.mp hf).2
    simp only [decide_not, Bool.not_eq_eq_eq_not, Bool.not_true,
      decide_eq_false_iff_not] at this
    exact absurd hsid this
  · exact List.mem_singleton.mp hs

theorem filter_ne_spaceId_length {rooms : List TourRoom} {sid : String}
    (hnd : (rooms.map (fun r => r.spaceId)).Nodup)
    (r0 : TourRoom) (hr : r0 ∈ rooms) (h0 : r0.spaceId = sid) :
    (List.filter (fun r => r.spaceId ≠ sid) rooms).length + 1 =
      rooms.length := by
  induction rooms with
  | nil => cases hr
  | cons r rest ih =>
      simp only [List.map_cons, List.nodup_cons] at hnd
      rcases hnd with ⟨hnot, hndr⟩
      by_cases hcase : r.spaceId = sid
      · have hfilter : List.filter (fun x => x.spaceId ≠ sid) (r :: rest) =
            rest := by
          simp only [List.filter]
          rw [show (decide ¬(r.spaceId = sid)) = false by simp [hcase]]
          rw [List.filter_eq_self]
          intro a ha
          rw [decide_eq_true_iff]
          intro heq
          exact hnot (List.mem_map.mpr ⟨a, ha, by rw [heq, ← hcase]⟩)
        rw [hfilter]
        simp
      · have hr0 : r0 ∈ rest := by
          rcases List.mem_cons.mp hr with heq | h
          · exact absurd (by rw [← heq]; exact h0) hcase
          · exact h
        have hfilter : List.filter (fun x => x.spaceId ≠ sid) (r :: rest) =
            r :: List.filter (fun x => x.spaceId ≠ sid) rest := by
          simp only [List.filter]
          rw [show (decide ¬(r.spaceId = sid)) = true by simp [hcase]]
        rw [hfilter]
        have := ih hndr hr0
        simp only [List.length_cons]
        omega

theorem addRoomRooms_length {rooms : List TourRoom} {room : TourRoom}
    (hnd : (rooms.map (fun r => r.spaceId)).Nodup)
    (r0 : TourRoom) (hr : r0 ∈ rooms) (h0 : r0.spaceId = room.spaceId) :
    (addRoomRooms rooms room).length = rooms.length := by
  rw [(addRoomRooms_perm rooms room).length_eq, List.length_append,
    List.length_singleton]
  exact filter_ne_spaceId_length hnd r0 hr h0

/-- C8: a tour produced by `addRoomToTour` has rooms sorted in
non-decreasing `order`; both `addRoomToTour` and `removeRoomFromTour`
preserve "at most one room per `spaceId`"; adding a room whose `spaceId` is
already present replaces the old entry (the new room is in the list, no
other entry carries its `spaceId`, and the room count does not grow); and
the `POST /api/tours/:id/rooms` handler passes the new room with
`order = tour.rooms.length`. -/
theorem C8_rooms_sorted_unique (db : TourDB) (tid : String)
    (room : TourRoom) (sid : String) (now : Nat) :
    (∀ tour, getTour db tid = some tour →
      ∃ t', addRoomToTour db tid room now =
          (some t', mapTour db tid (fun _ => t')) ∧
        t'.rooms = addRoomRooms tour.rooms room ∧
        t'.rooms.Pairwise (fun a b => a.order ≤ b.order) ∧
        ((tour.rooms.map (fun r => r.spaceId)).Nodup →
          (t'.rooms.map (fun r => r.spaceId)).Nodup) ∧
        room ∈ t'.rooms ∧
        (∀ r ∈ t'.rooms, r.spaceId = room.spaceId → r = room) ∧
        ((tour.rooms.map (fun r => r.spaceId)).Nodup →
          ∀ r0 ∈ tour.rooms, r0.spaceId = room.spaceId →
            t'.rooms.length = tour.rooms.length)) ∧
    (∀ tour, getTour db tid = some tour →
      ∃ t2, removeRoomFromTour db tid sid now =
          (some t2, mapTour db tid (fun _ => t2)) ∧
        (tour.rooms.Pairwise (fun a b => a.order ≤ b.order) →
          t2.rooms.Pairwise (fun a b => a.order ≤ b.order)) ∧
        ((tour.rooms.map (fun r => r.spaceId)).Nodup →
          (t2.rooms.map (fun r => r.spaceId)).Nodup) ∧
        (∀ r ∈ t2.rooms, r.spaceId ≠ sid)) ∧
    (∀ teams tours decoded header id lbl ctx tour,
      resolveAuthContext decoded header teams = some ctx →
      getTour tours id = some tour → tour.teamId = ctx.teamId →
      ∃ t', addRoomRoute teams tours decoded header id sid lbl now =
          (Resp.ok t', mapTour tours id (fun _ => t')) ∧
        t'.rooms = addRoomRooms tour.rooms
          ⟨sid, lbl, tour.rooms.length⟩ ∧
        (⟨sid, lbl, tour.rooms.length⟩ : TourRoom) ∈ t'.rooms) := by
  refine ⟨?_, ?_, ?_⟩
  · intro tour hget
    refine ⟨{ tour with rooms := addRoomRooms tour.rooms room,
                        updatedAt := now },
      by simp [addRoomToTour, hget], rfl,
      addRoomRooms_pairwise tour.rooms room,
      fun hnd => addRoomRooms_nodup hnd,
      addRoomRooms_mem tour.rooms room,
      fun r hr hsid => addRoomRooms_replace hr hsid,
      fun hnd r0 hr0 h0 => addRoomRooms_length hnd r0 hr0 h0⟩
  · intro tour hget
    refine ⟨{ tour with
                rooms := List.filter (fun r => r.spaceId ≠ sid) tour.rooms,
                updatedAt := now },
      by simp [removeRoomFromTour, hget], ?_, ?_, ?_⟩
    · intro hp
      exact List.Pairwise.sublist (List.filter_sublist tour.rooms) hp
    · intro hnd
      exact List.Nodup.sublist
        ((List.filter_sublist tour.rooms).map (fun r => r.spaceId)) hnd
    · intro r hr
      have := (List.mem_filter.mp hr).2
      simpa using this
  · intro teams tours decoded header id lbl ctx tour hctx hget hteam
    have hnotne : ¬ tour.teamId ≠ ctx.teamId := by
      rw [hteam]
      exact fun hh => hh rfl
    refine ⟨{ tour with
                rooms := addRoomRooms tour.rooms
                  ⟨sid, lbl, tour.rooms.length⟩,
                updatedAt := now }, ?_, rfl,
      addRoomRooms_mem tour.rooms _⟩
    have hadd : addRoomToTour tours id
        (⟨sid, lbl, tour.rooms.length⟩ : TourRoom) now =
        (some { tour with
                  rooms := addRoomRooms tour.rooms
                    ⟨sid, lbl, tour.rooms.length⟩,
                  updatedAt := now },
         mapTour tours id (fun _ =>
           { tour with
               rooms := addRoomRooms tour.rooms
                 ⟨sid, lbl, tour.rooms.length⟩,
               updatedAt := now })) := by
      simp [addRoomToTour, hget]
    simp [addRoomRoute, hctx, hget, hnotne, hadd]

/-- Witness for C8: adding a room for an already-present space to a concrete
one-room tour — the produced rooms list is exactly the theorem's shape and
contains the new room. -/
theorem C8_rooms_sorted_unique_witness :
    ∃ t', addRoomToTour
        [{ id := "tr", teamId := "t1", createdBy := "u1", name := "T",
           address := "", description := "",
           rooms := [⟨"sA", "Living", 0⟩], isPublic := true,
           shareToken := "tok", createdAt := 0, updatedAt := 0 }]
        "tr" ⟨"sA", "Renamed", 1⟩ 5 =
        (some t',
         mapTour
          [{ id := "tr", teamId := "t1", createdBy := "u1", name := "T",
             address := "", description := "",
             rooms := [⟨"sA", "Living", 0⟩], isPublic := true,
             shareToken := "tok", createdAt := 0, updatedAt := 0 }]
          "tr" (fun _ => t')) ∧
      t'.rooms = addRoomRooms [⟨"sA", "Living", 0⟩] ⟨"sA", "Renamed", 1⟩ ∧
      t'.rooms.Pairwise (fun a b => a.order ≤ b.order) ∧
      ((([⟨"sA", "Living", 0⟩] : List TourRoom).map
          (fun r => r.spaceId)).Nodup →
        (t'.rooms.map (fun r => r.spaceId)).Nodup) := by
  rcases (C8_rooms_sorted_unique
      [{ id := "tr", teamId := "t1", createdBy := "u1", name := "T",
         address := "", description := "",
         rooms := [⟨"sA", "Living", 0⟩], isPublic := true,
         shareToken := "tok", createdAt := 0, updatedAt := 0 }]
      "tr" ⟨"sA", "Renamed", 1⟩ "sA" 5).1 _ (by rfl) with
    ⟨t', h1, h2, h3, h4, h5, h6, h7⟩
  exact ⟨t', h1, h2, h3, h4⟩

theorem condTask_eq_some {u : Option String} {mk : String → UploadTask}
    {t : UploadTask} (h : condTask u mk = some t) :
    ∃ url, u = some url ∧ jsTruthy (some url) = true ∧ t = mk url := by
  cases u with
  | none => simp [condTask] at h
  | some url =>
      by_cases htr : jsTruthy (some url) = true
      · simp only [condTask, if_pos htr, Option.some.injEq] at h
        exact ⟨url, rfl, htr, h.symm⟩
      · simp [condTask, htr] at h

theorem condTask_of_truthy {u : Option String} {mk : String → UploadTask}
    {url : String} (hu : u = some url) (htr : jsTruthy (some url) = true) :
    condTask u mk = some (mk url) := by
  rw [hu]
  simp [condTask, htr]

theorem condTask_isSome (u : Option String) (mk : String → UploadTask) :
    (condTask u mk).isSome = jsTruthy u := by
  cases u with
  | none => rfl
  | some url =>
      by_cases htr : jsTruthy (some url) = true
      · simp [condTask, htr]
      · simp only [condTask, if_neg htr, Option.isSome_none]
        simpa using (Bool.not_eq_true _).mp htr

theorem jsTruthy_jsOr (a b : Option String) :
    jsTruthy (jsOr a b) = (jsTruthy a || jsTruthy b) := by
  by_cases ha : jsTruthy a = true
  · simp [jsOr, ha]
  · have ha' : jsTruthy a = false := (Bool.not_eq_true _).mp ha
    simp [jsOr, ha']

theorem compressImageTask_path (url spaceId name : String)
    (mw : Option Nat) :
    strStartsWith ("models/" ++ spaceId ++ "/")
      (compressImageTask url spaceId name mw).path = true := by
  show strStartsWith ("models/" ++ spaceId ++ "/")
    ("models/" ++ spaceId ++ "/" ++ name ++ ".webp") = true
  rw [String.append_assoc ("models/" ++ spaceId ++ "/") name ".webp"]
  exact strStartsWith_append _ _

theorem reuploadBinaryTask_path (url spaceId name ctype : String) :
    strStartsWith ("models/" ++ spaceId ++ "/")
      (reuploadBinaryTask url spaceId name ctype).path = true :=
  strStartsWith_append _ _

theorem optMap_isSome {α β : Type} (f : α → β) (o : Option α) :
    (o.map f).isSome = o.isSome := by
  cases o <;> rfl

/-- C3: the completion branch of the status poll re-uploads exactly the
assets the fetched world carries — every upload lands under
`models/<spaceId>/`, thumbnail and panorama as WebP recompressions, the
splat binaries (three resolutions) and the mesh verbatim; each
`CompressedUrls` field is set (to the storage URL of its fixed object path)
precisely when the corresponding asset is present and truthy; and the
subsequent `updateSpace` writes `status: "ready"`, the world id, and each
asset URL, leaving fields of absent assets at their stored values. -/
theorem C3_asset_postprocessing (bucket spaceId : String)
    (assets : WorldAssets) :
    (∀ t ∈ (compressAndUploadAssets bucket spaceId assets).2,
      strStartsWith ("models/" ++ spaceId ++ "/") t.path = true) ∧
    ((compressAndUploadAssets bucket spaceId assets).1.thumbnailUrl.isSome =
      jsTruthy assets.thumbnail_url) ∧
    ((compressAndUploadAssets bucket spaceId assets).1.panoramaUrl.isSome =
      jsTruthy assets.panorama_url) ∧
    ((compressAndUploadAssets bucket spaceId assets).1.splatUrl.isSome =
      (jsTruthy ((assets.splats.bind (fun s => s.spz_urls)).bind
          (fun z => z.full_res)) ||
       jsTruthy ((assets.splats.bind (fun s => s.spz_urls)).bind
          (fun z => z.res500k)) ||
       jsTruthy ((assets.splats.bind (fun s => s.spz_urls)).bind
          (fun z => z.res100k)))) ∧
    ((compressAndUploadAssets bucket spaceId assets).1.splatUrl500k.isSome =
      jsTruthy ((assets.splats.bind (fun s => s.spz_urls)).bind
        (fun z => z.res500k))) ∧
    ((compressAndUploadAssets bucket spaceId assets).1.splatUrl100k.isSome =
      jsTruthy ((assets.splats.bind (fun s => s.spz_urls)).bind
        (fun z => z.res100k))) ∧
    ((compressAndUploadAssets bucket spaceId assets).1.meshUrl.isSome =
      jsTruthy (assets.mesh.bind (fun m => m.glb_url))) ∧
    (∀ url, assets.thumbnail_url = some url →
      jsTruthy (some url) = true →
      compressImageTask url spaceId "thumbnail" (some 800) ∈
        (compressAndUploadAssets bucket spaceId assets).2) ∧
    (∀ url, assets.panorama_url = some url →
      jsTruthy (some url) = true →
      compressImageTask url spaceId "panorama" none ∈
        (compressAndUploadAssets bucket spaceId assets).2) ∧
    (∀ url,
      jsOr (jsOr ((assets.splats.bind (fun s => s.spz_urls)).bind
          (fun z => z.full_res))
        ((assets.splats.bind (fun s => s.spz_urls)).bind
          (fun z => z.res500k)))
        ((assets.splats.bind (fun s => s.spz_urls)).bind
          (fun z => z.res100k)) = some url →
      jsTruthy (some url) = true →
      reuploadBinaryTask url spaceId "model.spz"
        "application/octet-stream" ∈
        (compressAndUploadAssets bucket spaceId assets).2) ∧
    (∀ url, (assets.splats.bind (fun s => s.spz_urls)).bind
        (fun z => z.res500k) = some url →
      jsTruthy (some url) = true →
      reuploadBinaryTask url spaceId "model-500k.spz"
        "application/octet-stream" ∈
        (compressAndUploadAssets bucket spaceId assets).2) ∧
    (∀ url, (assets.splats.bind (fun s => s.spz_urls)).bind
        (fun z => z.res100k) = some url →
      jsTruthy (some url) = true →
      reuploadBinaryTask url spaceId "model-100k.spz"
        "application/octet-stream" ∈
        (compressAndUploadAssets bucket spaceId assets).2) ∧
    (∀ url, assets.mesh.bind (fun m => m.glb_url) = some url →
      jsTruthy (some url) = true →
      reuploadBinaryTask url spaceId "model.glb" "model/gltf-binary" ∈
        (compressAndUploadAssets bucket spaceId assets).2) ∧
    (∀ u, (compressAndUploadAssets bucket spaceId assets).1.thumbnailUrl =
        some u →
      u = storageUrl bucket
        ("models/" ++ spaceId ++ "/" ++ "thumbnail" ++ ".webp")) ∧
    (∀ u, (compressAndUploadAssets bucket spaceId assets).1.panoramaUrl =
        some u →
      u = storageUrl bucket
        ("models/" ++ spaceId ++ "/" ++ "panorama" ++ ".webp")) ∧
    (∀ u, (compressAndUploadAssets bucket spaceId assets).1.splatUrl =
        some u →
      u = storageUrl bucket ("models/" ++ spaceId ++ "/" ++ "model.spz")) ∧
    (∀ u, (compressAndUploadAssets bucket spaceId assets).1.splatUrl500k =
        some u →
      u = storageUrl bucket
        ("models/" ++ spaceId ++ "/" ++ "model-500k.spz")) ∧
    (∀ u, (compressAndUploadAssets bucket spaceId assets).1.splatUrl100k =
        some u →
      u = storageUrl bucket
        ("models/" ++ spaceId ++ "/" ++ "model-100k.spz")) ∧
    (∀ u, (compressAndUploadAssets bucket spaceId assets).1.meshUrl =
        some u →
      u = storageUrl bucket ("models/" ++ spaceId ++ "/" ++ "model.glb")) ∧
    (∀ s worldId marble now,
      (readyUpdate s worldId (compressAndUploadAssets bucket spaceId assets).1
          marble now).status = "ready" ∧
      (readyUpdate s worldId (compressAndUploadAssets bucket spaceId assets).1
          marble now).worldId = some worldId ∧
      (readyUpdate s worldId (compressAndUploadAssets bucket spaceId assets).1
          marble now).thumbnailUrl =
        ((compressAndUploadAssets bucket spaceId assets).1.thumbnailUrl).or
          s.thumbnailUrl ∧
      (readyUpdate s worldId (compressAndUploadAssets bucket spaceId assets).1
          marble now).panoramaUrl =
        ((compressAndUploadAssets bucket spaceId assets).1.panoramaUrl).or
          s.panoramaUrl ∧
      (readyUpdate s worldId (compressAndUploadAssets bucket spaceId assets).1
          marble now).splatUrl =
        ((compressAndUploadAssets bucket spaceId assets).1.splatUrl).or
          s.splatUrl ∧
      (readyUpdate s worldId (compressAndUploadAssets bucket spaceId assets).1
          marble now).splatUrl500k =
        ((compressAndUploadAssets bucket spaceId assets).1.splatUrl500k).or
          s.splatUrl500k ∧
      (readyUpdate s worldId (compressAndUploadAssets bucket spaceId assets).1
          marble now).splatUrl100k =
        ((compressAndUploadAssets bucket spaceId assets).1.splatUrl100k).or
          s.splatUrl100k ∧
      (readyUpdate s worldId (compressAndUploadAssets bucket spaceId assets).1
          marble now).meshUrl =
        ((compressAndUploadAssets bucket spaceId assets).1.meshUrl).or
          s.meshUrl ∧
      (readyUpdate s worldId (compressAndUploadAssets bucket spaceId assets).1
          marble now).marbleUrl = marble.or s.marbleUrl ∧
      (readyUpdate s worldId (compressAndUploadAssets bucket spaceId assets).1
          marble now).updatedAt = now) := by
  refine ⟨?_, ?_, ?_, ?_, ?_, ?_, ?_, ?_, ?_, ?_, ?_, ?_, ?_, ?_, ?_, ?_,
    ?_, ?_, ?_, ?_⟩
  · intro t ht
    simp only [compressAndUploadAssets] at ht
    rcases List.mem_filterMap.mp ht with ⟨o, ho, hid⟩
    simp only [id_eq] at hid
    simp only [List.mem_cons, List.not_mem_nil, or_false] at ho
    rcases ho with rfl | rfl | rfl | rfl | rfl | rfl
    · rcases condTask_eq_some hid with ⟨url, _, _, rfl⟩
      exact compressImageTask_path url spaceId "thumbnail" (some 800)
    · rcases condTask_eq_some hid with ⟨url, _, _, rfl⟩
      exact compressImageTask_path url spaceId "panorama" none
    · rcases condTask_eq_some hid with ⟨url, _, _, rfl⟩
      exact reuploadBinaryTask_path url spaceId "model.spz" _
    · rcases condTask_eq_some hid with ⟨url, _, _, rfl⟩
      exact reuploadBinaryTask_path url spaceId "model-500k.spz" _
    · rcases condTask_eq_some hid with ⟨url, _, _, rfl⟩
      exact reuploadBinaryTask_path url spaceId "model-100k.spz" _
    · rcases condTask_eq_some hid with ⟨url, _, _, rfl⟩
      exact reuploadBinaryTask_path url spaceId "model.glb" _
  · simp only [compressAndUploadAssets]
    rw [optMap_isSome, condTask_isSome]
  · simp only [compressAndUploadAssets]
    rw [optMap_isSome, condTask_isSome]
  · simp only [compressAndUploadAssets]
    rw [optMap_isSome, condTask_isSome, jsTruthy_jsOr, jsTruthy_jsOr]
  · simp only [compressAndUploadAssets]
    rw [optMap_isSome, condTask_isSome]
  · simp only [compressAndUploadAssets]
    rw [optMap_isSome, condTask_isSome]
  · simp only [compressAndUploadAssets]
    rw [optMap_isSome, condTask_isSome]
  · intro url hu htr
    simp only [compressAndUploadAssets]
    refine List.mem_filterMap.mpr ⟨_, List.mem_cons_self _ _, ?_⟩
    simp only [id_eq]
    exact condTask_of_truthy hu htr
  · intro url hu htr
    simp only [compressAndUploadAssets]
    refine List.mem_filterMap.mpr
      ⟨_, List.mem_cons_of_mem _ (List.mem_cons_self _ _), ?_⟩
    simp only [id_eq]
    exact condTask_of_truthy hu htr
  · intro url hu htr
    simp only [compressAndUploadAssets]
    refine List.mem_filterMap.mpr
      ⟨_, List.mem_cons_of_mem _ (List.mem_cons_of_mem _
        (List.mem_cons_self _ _)), ?_⟩
    simp only [id_eq]
    exact condTask_of_truthy hu htr
  · intro url hu htr
    simp only [compressAndUploadAssets]
    refine List.mem_filterMap.mpr
      ⟨_, List.mem_cons_of_mem _ (List.mem_cons_of_mem _
        (List.mem_cons_of_mem _ (List.mem_cons_self _ _))), ?_⟩
    simp only [id_eq]
    exact condTask_of_truthy hu htr
  · intro url hu htr
    simp only [compressAndUploadAssets]
    refine List.mem_filterMap.mpr
      ⟨_, List.mem_cons_of_mem _ (List.mem_cons_of_mem _
        (List.mem_cons_of_mem _ (List.mem_cons_of_mem _
          (List.mem_cons_self _ _)))), ?_⟩
    simp only [id_eq]
    exact condTask_of_truthy hu htr
  · intro url hu htr
    simp only [compressAndUploadAssets]
    refine List.mem_filterMap.mpr
      ⟨_, List.mem_cons_of_mem _ (List.mem_cons_of_mem _
        (List.mem_cons_of_mem _ (List.mem_cons_of_mem _
          (List.mem_cons_of_mem _ (List.mem_cons_self _ _))))), ?_⟩
    simp only [id_eq]
    exact condTask_of_truthy hu htr
  · intro u hu
    simp only [compressAndUploadAssets] at hu
    cases hc : condTask assets.thumbnail_url
        (fun url => compressImageTask url spaceId "thumbnail" (some 800)) with
    | none => rw [hc] at hu; simp at hu
    | some t =>
        rw [hc] at hu
        simp only [Option.map_some', Option.some.injEq] at hu
        rcases condTask_eq_some hc with ⟨url, _, _, rfl⟩
        exact hu.symm
  · intro u hu
    simp only [compressAndUploadAssets] at hu
    cases hc : condTask assets.panorama_url
        (fun url => compressImageTask url spaceId "panorama" none) with
    | none => rw [hc] at hu; simp at hu
    | some t =>
        rw [hc] at hu
        simp only [Option.map_some', Option.some.injEq] at hu
        rcases condTask_eq_some hc with ⟨url, _, _, rfl⟩
        exact hu.symm
  · intro u hu
    simp only [compressAndUploadAssets] at hu
    cases hc : condTask
        (jsOr (jsOr ((assets.splats.bind (fun s => s.spz_urls)).bind
            (fun z => z.full_res))
          ((assets.splats.bind (fun s => s.spz_urls)).bind
            (fun z => z.res500k)))
          ((assets.splats.bind (fun s => s.spz_urls)).bind
            (fun z => z.res100k)))
        (fun url => reuploadBinaryTask url spaceId "model.spz"
          "application/octet-stream") with
    | none => rw [hc] at hu; simp at hu
    | some t =>
        rw [hc] at hu
        simp only [Option.map_some', Option.some.injEq] at hu
        rcases condTask_eq_some hc with ⟨url, _, _, rfl⟩
        exact hu.symm
  · intro u hu
    simp only [compressAndUploadAssets] at hu
    cases hc : condTask
        ((assets.splats.bind (fun s => s.spz_urls)).bind
          (fun z => z.res500k))
        (fun url => reuploadBinaryTask url spaceId "model-500k.spz"
          "application/octet-stream") with
    | none => rw [hc] at hu; simp at hu
    | some t =>
        rw [hc] at hu
        simp only [Option.map_some', Option.some.injEq] at hu
        rcases condTask_eq_some hc with ⟨url, _, _, rfl⟩
        exact hu.symm
  · intro u hu
    simp only [compressAndUploadAssets] at hu
    cases hc : condTask
        ((assets.splats.bind (fun s => s.spz_urls)).bind
          (fun z => z.res100k))
        (fun url => reuploadBinaryTask url spaceId "model-100k.spz"
          "application/octet-stream") with
    | none => rw [hc] at hu; simp at hu
    | some t =>
        rw [hc] at hu
        simp only [Option.map_some', Option.some.injEq] at hu
        rcases condTask_eq_some hc with ⟨url, _, _, rfl⟩
        exact hu.symm
  · intro u hu
    simp only [compressAndUploadAssets] at hu
    cases hc : condTask (assets.mesh.bind (fun m => m.glb_url))
        (fun url => reuploadBinaryTask url spaceId "model.glb"
          "model/gltf-binary") with
    | none => rw [hc] at hu; simp at hu
    | some t =>
        rw [hc] at hu
        simp only [Option.map_some', Option.some.injEq] at hu
        rcases condTask_eq_some hc with ⟨url, _, _, rfl⟩
        exact hu.symm
  · intro s worldId marble now
    exact ⟨rfl, rfl, rfl, rfl, rfl, rfl, rfl, rfl, rfl, rfl⟩

/-- Witness for C3: a world with a thumbnail and a 500k splat — the
thumbnail WebP-recompression task is scheduled and the 500k URL field is
set.  (`⟨…⟩` builds the `WorldAssets` record: thumbnail, panorama, splats,
mesh.) -/
theorem C3_asset_postprocessing_witness :
    (compressImageTask "http://w/thumb.png" "s1" "thumbnail" (some 800) ∈
      (compressAndUploadAssets "bkt" "s1"
        ⟨some "http://w/thumb.png", none,
         some ⟨some ⟨none, some "http://w/500k.spz", none⟩⟩, none⟩).2) ∧
    ((compressAndUploadAssets "bkt" "s1"
        ⟨some "http://w/thumb.png", none,
         some ⟨some ⟨none, some "http://w/500k.spz", none⟩⟩,
         none⟩).1.splatUrl500k.isSome = true) := by
  constructor
  · exact (C3_asset_postprocessing "bkt" "s1"
      ⟨some "http://w/thumb.png", none,
       some ⟨some ⟨none, some "http://w/500k.spz", none⟩⟩,
       none⟩).2.2.2.2.2.2.2.1
      "http://w/thumb.png" (by rfl) (by decide)
  · rw [(C3_asset_postprocessing "bkt" "s1"
      ⟨some "http://w/thumb.png", none,
       some ⟨some ⟨none, some "http://w/500k.spz", none⟩⟩,
       none⟩).2.2.2.2.1]
    decide

theorem foldl_removeRoom_clears (sid : String) (now : Nat)
    (teamId : String) :
    ∀ (targets : List Tour) (db : TourDB),
      (∀ u ∈ db, u.teamId = teamId →
        u.rooms.any (fun r => r.spaceId = sid) = true →
        u.id ∈ targets.map (fun t => t.id)) →
      ∀ u ∈ List.foldl (fun d t => (removeRoomFromTour d t.id sid now).2)
          db targets,
        u.teamId = teamId → ∀ r ∈ u.rooms, r.spaceId ≠ sid := by
  intro targets
  induction targets with
  | nil =>
      intro db hinv u hu hteam r hr heq
      have hany : u.rooms.any (fun r => r.spaceId = sid) = true :=
        List.any_eq_true.mpr ⟨r, hr, by simp [heq]⟩
      have := hinv u hu hteam hany
      simp at this
  | cons t ts ih =>
      intro db hinv u hu hteam r hr heq
      simp only [List.foldl_cons] at hu
      refine ih (removeRoomFromTour db t.id sid now).2 ?_ u hu hteam r hr heq
      intro v hv hvteam hvany
      cases hg : getTour db t.id with
      | none =>
          simp only [removeRoomFromTour, hg] at hv
          have hne : v.id ≠ t.id := by
            intro hvid
            have := List.find?_eq_none.mp hg v hv
            simp [hvid] at this
          have := hinv v hv hvteam hvany
          simp only [List.map_cons, List.mem_cons] at this
          rcases this with h | h
          · exact absurd h hne
          · exact h
      | some tour =>
          simp only [removeRoomFromTour, hg] at hv
          rcases mem_mapTour hv with ⟨a, ha, haid, rfl⟩ | ⟨hvdb, hvne⟩
          · exfalso
            rcases List.any_eq_true.mp hvany with ⟨r', hr', heq'⟩
            have := (List.mem_filter.mp hr').2
            simp only [decide_not, Bool.not_eq_eq_eq_not, Bool.not_true,
              decide_eq_false_iff_not] at this
            exact this (by simpa using heq')
          · have := hinv v hvdb hvteam hvany
            simp only [List.map_cons, List.mem_cons] at this
            rcases this with h | h
            · exact absurd h hvne
            · exact h

/-- C4: for an existing space of the caller's team, `DELETE /api/spaces/:id`
answers success and the resulting state has no space document under the id,
no stored file under `models/<id>/` or `images/<id>/` (files outside those
prefixes are kept), and no tour of the team referencing the space in any of
its rooms — the document delete never happens without the storage and tour
cleanup. -/
theorem C4_delete_space_cascade (teams : TeamDB) (st : AppState)
    (decoded header : Option String) (id : String) (now : Nat)
    (ctx : AuthContext) (s : SpaceDoc)
    (hctx : resolveAuthContext decoded header teams = some ctx)
    (hs : getSpace st.spaces id = some s)
    (hteam : s.teamId = ctx.teamId) :
    (deleteSpaceRoute teams st decoded header id now).1 = Resp.ok () ∧
    (∀ v ∈ (deleteSpaceRoute teams st decoded header id now).2.spaces,
      v.id ≠ id) ∧
    (∀ p ∈ (deleteSpaceRoute teams st decoded header id now).2.files,
      strStartsWith ("models/" ++ id ++ "/") p = false ∧
      strStartsWith ("images/" ++ id ++ "/") p = false) ∧
    (∀ p ∈ st.files,
      strStartsWith ("models/" ++ id ++ "/") p = false →
      strStartsWith ("images/" ++ id ++ "/") p = false →
      p ∈ (deleteSpaceRoute teams st decoded header id now).2.files) ∧
    (∀ u ∈ (deleteSpaceRoute teams st decoded header id now).2.tours,
      u.teamId = ctx.teamId → ∀ r ∈ u.rooms, r.spaceId ≠ id) := by
  have hnotne : ¬ s.teamId ≠ ctx.teamId := fun hh => hh hteam
  have hroute : deleteSpaceRoute teams st decoded header id now =
      (Resp.ok (),
       { spaces := deleteSpaceDoc st.spaces id
         tours := List.foldl
           (fun d t => (removeRoomFromTour d t.id id now).2) st.tours
           (List.filter (fun t => t.rooms.any (fun r => r.spaceId = id))
             (getAllTours st.tours ctx.teamId))
         files := deleteSpaceFiles st.files id }) := by
    simp [deleteSpaceRoute, hctx, hs, hnotne]
  refine ⟨by rw [hroute], ?_, ?_, ?_, ?_⟩
  · rw [hroute]
    intro v hv
    have := (List.mem_filter.mp hv).2
    simpa using this
  · rw [hroute]
    intro p hp
    have := (List.mem_filter.mp hp).2
    simpa using this
  · rw [hroute]
    intro p hp h1 h2
    exact List.mem_filter.mpr ⟨hp, by simp [h1, h2]⟩
  · rw [hroute]
    refine foldl_removeRoom_clears id now ctx.teamId _ st.tours ?_
    intro u hu huteam huany
    have h1 : u ∈ List.filter (fun t => t.teamId = ctx.teamId) st.tours :=
      List.mem_filter.mpr ⟨hu, by simp [huteam]⟩
    have h2 : u ∈ getAllTours st.tours ctx.teamId :=
      (sortBy_perm _ _).mem_iff.mpr h1
    have h3 : u ∈ List.filter
        (fun t => t.rooms.any (fun r => r.spaceId = id))
        (getAllTours st.tours ctx.teamId) :=
      List.mem_filter.mpr ⟨h2, huany⟩
    exact List.mem_map.mpr ⟨u, h3, rfl⟩

/-- Witness for C4: a concrete team, space, tour referencing it, and three
stored files — the delete succeeds, the space's files are gone (the foreign
file survives) and the team's tour no longer references the space. -/
theorem C4_delete_space_cascade_witness :
    ((deleteSpaceRoute
      [{ id := "t1", name := "Team", type := "personal", ownerId := "u1",
         memberIds := ["u1"], inviteCode := "c", inviteEnabled := false,
         createdAt := 0, updatedAt := 0 }]
      { spaces := [{ id := "s1", teamId := "t1", createdBy := "u1",
                     name := "Room", address := "", description := "",
                     status := "ready", imageCount := 1, createdAt := 0,
                     updatedAt := 0 }]
        tours := [{ id := "tr1", teamId := "t1", createdBy := "u1",
                    name := "T", address := "", description := "",
                    rooms := [⟨"s1", "Living", 0⟩], isPublic := true,
                    shareToken := "tok", createdAt := 0, updatedAt := 0 }]
        files := ["models/s1/model.spz", "images/s1/0.jpg",
                  "models/zz/model.spz"] }
      (some "u1") (some "t1") "s1" 9).1 = Resp.ok ()) ∧
    (∀ u ∈ (deleteSpaceRoute
      [{ id := "t1", name := "Team", type := "personal", ownerId := "u1",
         memberIds := ["u1"], inviteCode := "c", inviteEnabled := false,
         createdAt := 0, updatedAt := 0 }]
      { spaces := [{ id := "s1", teamId := "t1", createdBy := "u1",
                     name := "Room", address := "", description := "",
                     status := "ready", imageCount := 1, createdAt := 0,
                     updatedAt := 0 }]
        tours := [{ id := "tr1", teamId := "t1", createdBy := "u1",
                    name := "T", address := "", description := "",
                    rooms := [⟨"s1", "Living", 0⟩], isPublic := true,
                    shareToken := "tok", createdAt := 0, updatedAt := 0 }]
        files := ["models/s1/model.spz", "images/s1/0.jpg",
                  "models/zz/model.spz"] }
      (some "u1") (some "t1") "s1" 9).2.tours,
      u.teamId = "t1" → ∀ r ∈ u.rooms, r.spaceId ≠ "s1") := by
  constructor
  · exact (C4_delete_space_cascade _ _ (some "u1") (some "t1") "s1" 9
      ⟨"u1", "t1"⟩ _ (by rfl) (by rfl) (by rfl)).1
  · exact (C4_delete_space_cascade _ _ (some "u1") (some "t1") "s1" 9
      ⟨"u1", "t1"⟩ _ (by rfl) (by rfl) (by rfl)).2.2.2.2
